import Mathlib

/-
Verification of the amo-workflows batch document pipelines.

The four workflow scripts (text extraction, receipt processing, contract
review, video-to-audio conversion) are shallowly embedded below.  The host
automation runtime (the `fs` and `cliCommand` collaborators) is modelled by
an explicit filesystem state `FS` plus an oracle environment `Env` that fixes
the behaviour of the external tools, absolute-path resolution, the current
working directory, content hashing, JSON parsing and serialization, and the
failure modes of mkdir / write / readdir.  Side effects that the claims talk
about (tool invocations, file writes, file removals, error reports) are
recorded in an explicit event trace.
-/

namespace Amo

/-! ### Kernel-reducible string primitives

The corresponding core `String` functions are implemented with well-founded
recursion over byte positions, which the kernel cannot evaluate; these
structural char-list versions compute the same operations and let concrete
witnesses be checked by `decide`. -/

/-- Split a character list at every occurrence of a separator. -/
def splitOnChar (sep : Char) : List Char → List (List Char)
  | [] => [[]]
  | c :: rest =>
    let r := splitOnChar sep rest
    if c = sep then [] :: r
    else
      match r with
      | [] => [[c]]
      | h :: t => (c :: h) :: t

/-- Whether `s` starts with `pre` (JS `startsWith`). -/
def strStartsWith (s pre : String) : Bool :=
  pre.toList.isPrefixOf s.toList

/-- Whether `s` ends with `suf` (JS `endsWith`). -/
def strEndsWith (s suf : String) : Bool :=
  suf.toList.isSuffixOf s.toList

/-- JS `String.prototype.trim` restricted to the ASCII whitespace actually
occurring in the modelled data. -/
def trimStr (s : String) : String :=
  (((s.toList.dropWhile Char.isWhitespace).reverse.dropWhile
    Char.isWhitespace).reverse).asString

/-- Lower-casing by per-character `Char.toLower` (JS `toLowerCase` on the
ASCII names occurring here). -/
def toLowerStr (s : String) : String :=
  (s.toList.map Char.toLower).asString

/-- Drop the last `n` characters. -/
def strDropRight (s : String) (n : Nat) : String :=
  (s.toList.take (s.toList.length - n)).asString

/-! ### Path utilities (host runtime path helpers) -/

/-- Model of `fs.join`: join path components with a slash. -/
def pjoin (parts : List String) : String :=
  String.intercalate "/" parts

/-- Model of `fs.filename`: the last path component. -/
def fsFilename (p : String) : String :=
  ((splitOnChar '/' p.toList).getLastD p.toList).asString

/-- Model of `fs.dirname`: the path without its last component. -/
def fsDirname (p : String) : String :=
  let parts := (splitOnChar '/' p.toList).map List.asString
  if parts.length ≤ 1 then "."
  else
    let d := String.intercalate "/" parts.dropLast
    if d = "" then "/" else d

/-- Model of `fs.ext`: the extension of the last path component, including
the leading dot, or `""` when the file name has no extension (a leading-dot
name such as `.gitignore` counts as having no extension). -/
def fsExt (p : String) : String :=
  let f := fsFilename p
  let parts := (splitOnChar '.' f.toList).map List.asString
  if parts.length ≤ 1 then ""
  else if strStartsWith f "." && parts.length == 2 then ""
  else "." ++ parts.getLastD ""

/-- Model of `fs.basename`: the last path component without its extension. -/
def fsBasename (p : String) : String :=
  let f := fsFilename p
  strDropRight f (fsExt p).toList.length

/-! ### Filesystem state -/

/-- One entry of a directory listing, as returned by `fs.readdir`. -/
structure DirEntry where
  name : String
  path : String
  isDir : Bool
deriving Repr, DecidableEq

/-- Filesystem state: regular files (path and content) and directories. -/
structure FS where
  files : List (String × String)
  dirs : List String
deriving Repr, DecidableEq

def FS.isFile (fs : FS) (p : String) : Bool :=
  fs.files.any (fun q => q.1 = p)

def FS.isDir (fs : FS) (p : String) : Bool :=
  fs.dirs.contains p

/-- Model of `fs.exists`. -/
def fexists (fs : FS) (p : String) : Bool :=
  fs.isFile p || fs.isDir p

/-- Model of `fs.read`: `none` is the error case (file absent). -/
def FS.readFile (fs : FS) (p : String) : Option String :=
  (fs.files.find? (fun q => q.1 = p)).map (fun q => q.2)

/-- Raw file write: overwrite in place or append a new file. -/
def FS.writeRaw (fs : FS) (p c : String) : FS :=
  if fs.files.any (fun q => q.1 = p) then
    { fs with files := fs.files.map (fun q => if q.1 = p then (p, c) else q) }
  else
    { fs with files := fs.files ++ [(p, c)] }

/-- Model of `fs.rm`. -/
def FS.rm (fs : FS) (p : String) : FS :=
  { fs with files := fs.files.filter (fun q => q.1 ≠ p) }

/-- Raw directory creation (success case of `fs.mkdir`). -/
def FS.mkdirRaw (fs : FS) (p : String) : FS :=
  { fs with dirs := fs.dirs ++ [p] }

/-- Model of `fs.readdir`: the direct children of a directory (files first,
then subdirectories, in state order).  Failure is modelled separately via
`Env.readdirFails`. -/
def FS.readdir (fs : FS) (d : String) : List DirEntry :=
  (fs.files.filter (fun q => fsDirname q.1 = d)).map
      (fun q => ⟨fsFilename q.1, q.1, false⟩)
    ++ (fs.dirs.filter (fun p => fsDirname p = d)).map
      (fun p => ⟨fsFilename p, p, true⟩)

/-- Pattern matching used by `fs.find`: the scripts only use the wildcard
pattern and exact file names. -/
def matchPattern (pat name : String) : Bool :=
  pat = "*" || pat = name

/-- Modelled from the spec: `fs.find` is the host runtime's pattern-based
recursive search (spec section 6); the runtime itself is not part of this
repository.  It returns every regular file strictly below `root` whose file
name matches the pattern. -/
def FS.findAll (fs : FS) (root pat : String) : List String :=
  (fs.files.map (fun q => q.1)).filter
    (fun p => strStartsWith p (root ++ "/") && matchPattern pat (fsFilename p))

/-! ### Structured records (JS values) -/

/-- JS values carried by receipt records.  Numbers are modelled as integers;
none of the verified claims depends on floating-point behaviour. -/
inductive JVal where
  | null
  | bool (b : Bool)
  | num (n : Int)
  | str (s : String)
  | arr (elems : List JVal)
  | obj (fields : List (String × JVal))
deriving Repr

/-- JS truthiness of a value. -/
def jvTruthy : JVal → Bool
  | .null => false
  | .bool b => b
  | .num n => n ≠ 0
  | .str s => s ≠ ""
  | .arr _ => true
  | .obj _ => true

mutual

/-- JS string coercion of a value, as used by `Array.prototype.join` and by
property-key coercion (nested arrays flatten through `toString`, plain
objects print as "[object Object]"). -/
def jvToStr : JVal → String
  | .null => ""
  | .bool b => if b then "true" else "false"
  | .num n => toString n
  | .str s => s
  | .obj _ => "[object Object]"
  | .arr es => String.intercalate "," (jvToStrList es)

/-- String coercion of each element of an array value. -/
def jvToStrList : List JVal → List String
  | [] => []
  | v :: rest => jvToStr v :: jvToStrList rest

end

/-- Property lookup on an object value. -/
def getKey (r : JVal) (k : String) : Option JVal :=
  match r with
  | .obj l => (l.find? (fun q => q.1 = k)).map (fun q => q.2)
  | _ => none

/-- JS property assignment on an association list: update in place when the
key exists, append otherwise. -/
def setKeyJ (l : List (String × JVal)) (k : String) (v : JVal) :
    List (String × JVal) :=
  if l.any (fun q => q.1 = k) then
    l.map (fun q => if q.1 = k then (k, v) else q)
  else l ++ [(k, v)]

/-- The fields of an object value (a value of any other shape contributes no
enumerable keys, matching a JS for-in loop over it). -/
def objFields (r : JVal) : List (String × JVal) :=
  match r with
  | .obj l => l
  | _ => []

/-! ### Events and the oracle environment -/

/-- Observable side effects of a run. -/
inductive Event where
  | ranTool (tool : String) (args : List String)
  | wrote (path : String)
  | removed (path : String)
  | logged (msg : String)
deriving Repr, DecidableEq

/-- Outcome of one external-tool invocation: the classified error (if any),
captured output streams, and the files the tool wrote. -/
structure ToolFx where
  error : Option String
  stdout : String
  stderr : String
  writes : List (String × String)

/-- Oracle environment fixing the behaviour of the external collaborators:
tool invocations, absolute-path resolution, failure sets for mkdir / write /
readdir, the current working directory, content hashing, the wall clock, and
the host JSON codec. -/
structure Env where
  runTool : String → List String → ToolFx
  absMap : String → Option String
  mkdirFails : String → Bool
  writeFails : String → Bool
  readdirFails : String → Bool
  cwdPath : Option String
  md5Map : String → Option String
  timeMillis : Nat
  parseJson : String → Option JVal
  stringify : JVal → String
  nowIso : String

/-- Apply the files written by a tool invocation to the filesystem. -/
def applyWrites (fs : FS) (ws : List (String × String)) : FS :=
  ws.foldl (fun g w => g.writeRaw w.1 w.2) fs

/-- Model of `cliCommand`: returns the tool outcome, the filesystem after
the tool's own writes, and the invocation event. -/
def cliCommand (env : Env) (fs : FS) (tool : String) (args : List String) :
    ToolFx × FS × List Event :=
  let fx := env.runTool tool args
  (fx, applyWrites fs fx.writes, [Event.ranTool tool args])

/-- Substring test (JS `String.prototype.indexOf(...) !== -1`). -/
def strContains (s sub : String) : Bool :=
  (List.range (s.toList.length + 1)).any
    (fun i => sub.toList.isPrefixOf (s.toList.drop i))

/-! ### checkCliTool (shared availability probe) -/

/-- Classification of a probe outcome, following `checkCliTool`: a
whitelist-blocked or not-found error fails; otherwise the tool is available
when there was no error or some output was captured. -/
def checkCliToolResult (fx : ToolFx) : Bool :=
  match fx.error with
  | some e =>
    if strContains e "not in the allowed CLI commands list" then false
    else if strContains e "command not found"
        || strContains e "No such file or directory" then false
    else
      let output := if fx.stdout ≠ "" then fx.stdout else fx.stderr
      output.length > 0
  | none => true

/-- Model of `checkCliTool`: probe the tool with `-h` and classify. -/
def checkCliTool (env : Env) (fs : FS) (tool : String) : Bool × FS :=
  let r := cliCommand env fs tool ["-h"]
  (checkCliToolResult r.1, r.2.1)

/-! ### Document discovery -/

/-- Extension allow-list of the text-extraction and contract-review
workflows. -/
def textDocumentExtensions : List String :=
  [".pdf", ".docx", ".doc", ".txt", ".png", ".jpg", ".jpeg", ".gif", ".bmp", ".tiff"]

/-- Extension allow-list of the receipt-processor workflow. -/
def receiptDocumentExtensions : List String :=
  [".pdf", ".png", ".jpg", ".jpeg", ".gif", ".bmp", ".tiff", ".docx", ".doc", ".txt"]

/-- Extension allow-list of the video-to-audio workflow. -/
def videoExtensions : List String :=
  [".mp4", ".avi", ".mov", ".mkv", ".wmv", ".flv", ".webm", ".m4v",
   ".mpg", ".mpeg", ".3gp", ".asf", ".rm", ".rmvb", ".vob", ".ts", ".mts"]

/-- Model of `isDocumentFile` from the text-extraction and contract-review
workflows: lower-cased extension compared against the allow-list. -/
def isDocumentFile (filepath : String) (exts : List String) : Bool :=
  exts.contains (toLowerStr (fsExt filepath))

/-- Model of `isDocumentFile` from the receipt-processor workflow: an empty
extension is rejected up front, the extension is lower-cased and a leading
dot is ensured before the allow-list comparison. -/
def isDocumentFileR (filepath : String) (exts : List String) : Bool :=
  let e := fsExt filepath
  if e = "" then false
  else
    let e1 := toLowerStr e
    let e2 := if strStartsWith e1 "." then e1 else "." ++ e1
    exts.contains e2

/-- Model of `isVideoFile` from the video-to-audio workflow. -/
def isVideoFile (filepath : String) (exts : List String) : Bool :=
  exts.contains (toLowerStr (fsExt filepath))

/-- Model of `getDocumentFiles` (text-extraction and contract-review
variant).  A directory root is listed non-recursively and non-directory
entries with allow-listed extensions are kept; a file root is kept when its
extension is allow-listed.  The JS `Array.prototype.sort()` (lexicographic
comparator, stable) is modelled by insertion sort under the lexicographic
order on strings; on the duplicate-free path lists produced here the two
agree.  Errors are only logged: the returned list carries no error signal. -/
def getDocumentFiles (env : Env) (fs : FS) (inputPath : String)
    (exts : List String) : List String × List Event :=
  if !(fexists fs inputPath) then
    ([], [Event.logged "cannot access input path"])
  else
    let r :=
      if fs.isDir inputPath then
        if env.readdirFails inputPath then
          (([] : List String), [Event.logged "failed to list directory"])
        else
          (((fs.readdir inputPath).filter
              (fun e => !e.isDir && isDocumentFile e.path exts)).map
                (fun e => e.path),
           ([] : List Event))
      else if fs.isFile inputPath then
        ((if isDocumentFile inputPath exts then [inputPath] else []), [])
      else ([], [])
    (r.1.insertionSort (· ≤ ·), r.2)

/-- Model of `getDocumentFiles` (receipt-processor variant): identical flow,
but using the receipt variant of the extension test. -/
def getDocumentFilesR (env : Env) (fs : FS) (inputPath : String)
    (exts : List String) : List String × List Event :=
  if !(fexists fs inputPath) then
    ([], [Event.logged "cannot access input path"])
  else
    let r :=
      if fs.isDir inputPath then
        if env.readdirFails inputPath then
          (([] : List String), [Event.logged "failed to list directory"])
        else
          (((fs.readdir inputPath).filter
              (fun e => !e.isDir && isDocumentFileR e.path exts)).map
                (fun e => e.path),
           ([] : List Event))
      else if fs.isFile inputPath then
        ((if isDocumentFileR inputPath exts then [inputPath] else []), [])
      else ([], [])
    (r.1.insertionSort (· ≤ ·), r.2)

/-- Model of `getVideoFiles` from the video-to-audio workflow: a directory
root is searched with `fs.find(inputPath, "*")` (the host runtime's
recursive pattern search), then filtered to regular files with allow-listed
extensions. -/
def getVideoFiles (fs : FS) (inputPath : String) (exts : List String) :
    List String :=
  if !(fexists fs inputPath) then []
  else
    let files :=
      if fs.isDir inputPath then
        (fs.findAll inputPath "*").filter
          (fun f => fs.isFile f && isVideoFile f exts)
      else if fs.isFile inputPath then
        (if isVideoFile inputPath exts then [inputPath] else [])
      else []
    files.insertionSort (· ≤ ·)

/-! ### Output-path validation and per-file output paths -/

/-- Outcome of `validateOutputPath`. -/
inductive VResult where
  | ok (path : String)
  | invalid (msg : String)
deriving Repr, DecidableEq

/-- The JS pattern `absResult.error ? outputPath : absResult.path`. -/
def absOr (env : Env) (p : String) : String :=
  (env.absMap p).getD p

/-- Model of `validateOutputPath` (identical in all four workflows).  Batch
mode requires an existing directory or creates one; single-file mode accepts
any existing path (the source file has two identical return branches for an
existing directory and an existing file) and otherwise ensures the parent
directory exists. -/
def validateOutputPath (env : Env) (fs : FS) (outputPath : String)
    (isBatch : Bool) : FS × VResult :=
  let pathExists := fexists fs outputPath
  if isBatch then
    if pathExists then
      if !(fs.isDir outputPath) then
        (fs, .invalid "output path must be a directory")
      else (fs, .ok (absOr env outputPath))
    else
      if env.mkdirFails outputPath then
        (fs, .invalid "cannot create output directory")
      else (fs.mkdirRaw outputPath, .ok (absOr env outputPath))
  else
    if pathExists then (fs, .ok (absOr env outputPath))
    else
      let parentDir := fsDirname outputPath
      if !(fexists fs parentDir) then
        if env.mkdirFails parentDir then
          (fs, .invalid "cannot create parent directory")
        else (fs.mkdirRaw parentDir, .ok (absOr env outputPath))
      else (fs, .ok (absOr env outputPath))

/-- Model of `determineTextOutputPath`. -/
def determineTextOutputPath (fs : FS) (inputFile baseName outputPath : String)
    (isBatch : Bool) : String :=
  let textFileName := baseName ++ ".txt"
  if outputPath ≠ "" then
    if isBatch || fs.isDir outputPath then pjoin [outputPath, textFileName]
    else if fsExt outputPath ≠ "" then outputPath
    else outputPath ++ ".txt"
  else pjoin [fsDirname inputFile, textFileName]

/-- Model of `determineReceiptOutputPath` (individual receipt files always
use the JSON extension). -/
def determineReceiptOutputPath (fs : FS) (inputFile baseName outputPath : String)
    (isBatch : Bool) : String :=
  let outputFileName := baseName ++ ".receipt.json"
  if outputPath ≠ "" then
    if isBatch || fs.isDir outputPath then pjoin [outputPath, outputFileName]
    else if fsExt outputPath ≠ "" then outputPath
    else outputPath ++ ".json"
  else pjoin [fsDirname inputFile, outputFileName]

/-! ### File-name sanitization for group summary files -/

/-- One character of the JS regex replacement `[^a-z0-9_\-] -> "_"`:
lower-case letters, digits, underscore and hyphen survive, every other
character becomes an underscore. -/
def sanitizeChar (c : Char) : Char :=
  if ('a' ≤ c ∧ c ≤ 'z') ∨ ('0' ≤ c ∧ c ≤ '9') ∨ c = '_' ∨ c = '-' then c
  else '_'

/-- The JS replacement `/_+/g -> "_"`: collapse runs of underscores. -/
def collapseUnderscores : List Char → List Char
  | [] => []
  | [c] => [c]
  | c :: d :: rest =>
    if c = '_' ∧ d = '_' then collapseUnderscores (d :: rest)
    else c :: collapseUnderscores (d :: rest)

/-- The JS replacement `/^_|_$/g -> ""`: drop one leading and one trailing
underscore. -/
def stripEdgeUnderscore (l : List Char) : List Char :=
  let a := match l with
    | '_' :: rest => rest
    | x => x
  if a.getLast? = some '_' then a.dropLast else a

/-- Model of `sanitizeFileName` from the receipt processor: fall back to
"unknown" for an empty name, lower-case, map characters outside
`[a-z0-9_-]` to underscores, collapse underscore runs, strip one leading and
one trailing underscore.  Note that hyphens are preserved. -/
def sanitizeFileName (name : String) : String :=
  let base := if name = "" then "unknown" else name
  let lowered := toLowerStr base
  (stripEdgeUnderscore (collapseUnderscores (lowered.toList.map sanitizeChar))).asString

/-- Run-collapsing step for the spec-worded sanitizer: the flag records
whether the previous character was part of a non-alphanumeric run already
rendered as an underscore. -/
def specCollapseAux : Bool → List Char → List Char
  | _, [] => []
  | inRun, c :: rest =>
    if c.isAlphanum then c :: specCollapseAux false rest
    else if inRun then specCollapseAux true rest
    else '_' :: specCollapseAux true rest

/-- Modelled from the spec's words, for comparison with `sanitizeFileName`
(claim C8): lower-case the value, collapse every run of non-alphanumeric
characters to a single underscore, and remove any leading or trailing
underscore. -/
def specSanitizeFileName (name : String) : String :=
  let collapsed := specCollapseAux false (toLowerStr name).toList
  ((collapsed.dropWhile (fun c => c = '_')).reverse.dropWhile
      (fun c => c = '_')).reverse.asString

/-! ### Record flattening -/

/-- Model of `flattenObject`, written with the JS result object made
explicit as an accumulator of key/value pairs (`result[k] = v` is the
in-place-or-append update `setKeyJ`).  The discriminant key "type-code" is
skipped, a top-level-or-nested key named "fields" holding an object is
merged without prefix (its values copied verbatim), other nested objects are
flattened recursively under dot-joined keys, and array values are joined
into one "; "-delimited string. -/
def flattenInto (acc : List (String × JVal)) (l : List (String × JVal))
    (pre : String) : List (String × JVal) :=
  match l with
  | [] => acc
  | (k, v) :: rest =>
    let newKey := if pre = "" then k else pre ++ "." ++ k
    if newKey = "type-code" then flattenInto acc rest pre
    else
      match v with
      | .obj vs =>
        if k = "fields" then
          let acc1 := vs.foldl
            (fun a q => if q.1 = "type-code" then a else setKeyJ a q.1 q.2) acc
          flattenInto acc1 rest pre
        else
          let flat := flattenInto [] vs newKey
          let acc1 := flat.foldl (fun a q => setKeyJ a q.1 q.2) acc
          flattenInto acc1 rest pre
      | .arr es =>
        flattenInto
          (setKeyJ acc newKey (.str (String.intercalate "; " (jvToStrList es))))
          rest pre
      | other => flattenInto (setKeyJ acc newKey other) rest pre
termination_by sizeOf l
decreasing_by
  all_goals simp
  all_goals omega

/-- Entry point of the flattening, with the JS default empty prefix. -/
def flattenObject (l : List (String × JVal)) (pre : String) :
    List (String × JVal) :=
  flattenInto [] l pre

/-! ### Grouping and summary files -/

/-- Second half of `determineReceiptType`: look for a truthy "type-code"
inside a truthy "fields" sub-object. -/
def determineReceiptTypeFields (r : JVal) : Option String :=
  match getKey r "fields" with
  | some fv =>
    if jvTruthy fv then
      match getKey fv "type-code" with
      | some v => if jvTruthy v then some (jvToStr v) else none
      | none => none
    else none
  | none => none

/-- Model of `determineReceiptType`: a truthy top-level "type-code" wins,
then a truthy "type-code" inside "fields"; otherwise no type. -/
def determineReceiptType (r : JVal) : Option String :=
  match getKey r "type-code" with
  | some v => if jvTruthy v then some (jvToStr v) else determineReceiptTypeFields r
  | none => determineReceiptTypeFields r

/-- Model of `groupReceiptsByType`: group records by their type in
first-occurrence order; records without a type are skipped. -/
def groupReceiptsByType (receipts : List JVal) : List (String × List JVal) :=
  receipts.foldl
    (fun acc r =>
      match determineReceiptType r with
      | none => acc
      | some t =>
        if acc.any (fun g => g.1 = t) then
          acc.map (fun g => if g.1 = t then (g.1, g.2 ++ [r]) else g)
        else acc ++ [(t, [r])])
    []

/-- CSV escaping of JS `"` by doubling. -/
def doubleQuotes (s : String) : String :=
  (s.toList.foldr
    (fun c acc => if c = '\"' then '\"' :: '\"' :: acc else c :: acc) []).asString

/-- One CSV cell, following `createTotalCsv`: strings containing a comma,
quote or newline are quoted with doubled quotes; null (and absent) values
print empty; other values use JS string coercion. -/
def csvCell (v : JVal) : String :=
  match v with
  | .str s =>
    if strContains s "," || strContains s "\"" || strContains s "\n" then
      "\"" ++ doubleQuotes s ++ "\""
    else s
  | .null => ""
  | other => jvToStr other

/-- Ordered, duplicate-free insertion (JS `Set` insertion order). -/
def insertUniqueStr (l : List String) (s : String) : List String :=
  if l.contains s then l else l ++ [s]

/-- Model of `createTotalCsv`: collect the union of flattened field names
over all receipts (minus the "type-code" column), then emit a header row and
one row per receipt. -/
def createTotalCsv (rs : List JVal) : String :=
  if rs.length = 0 then ""
  else
    let allFields := rs.foldl
      (fun acc r =>
        ((flattenObject (objFields r) "").map (fun q => q.1)).foldl
          (fun a k => if k = "type-code" then a else insertUniqueStr a k) acc)
      []
    let headerRow := String.intercalate "," allFields
    let dataRows := rs.map (fun r =>
      let flat := flattenObject (objFields r) ""
      String.intercalate ","
        (allFields.map (fun f =>
          match (flat.find? (fun q => q.1 = f)).map (fun q => q.2) with
          | none => ""
          | some v => csvCell v)))
    headerRow ++ "\n" ++ String.intercalate "\n" dataRows

/-- The per-group loop of `createSummaryFile`: skip empty groups and the
"general" group, derive the file name from the sanitized type, respect the
skip-if-exists policy per group file, and collect the successfully written
paths. -/
def summaryLoop (env : Env) (fs : FS) (totalDirPath fmt : String) (ow : Bool) :
    List (String × List JVal) → FS × List String × List Event
  | [] => (fs, [], [])
  | (t, rs) :: rest =>
    if rs.length > 0 ∧ t ≠ "general" then
      let typeFileName :=
        "receipts_" ++ sanitizeFileName t ++ "." ++ (if fmt = "csv" then "csv" else "json")
      let typeFilePath := pjoin [totalDirPath, typeFileName]
      if !ow && fexists fs typeFilePath then
        summaryLoop env fs totalDirPath fmt ow rest
      else
        let content := if fmt = "csv" then createTotalCsv rs else env.stringify (.arr rs)
        if env.writeFails typeFilePath then
          let r := summaryLoop env fs totalDirPath fmt ow rest
          (r.1, r.2.1, Event.logged "failed to save type summary file" :: r.2.2)
        else
          let fs1 := fs.writeRaw typeFilePath content
          let r := summaryLoop env fs1 totalDirPath fmt ow rest
          (r.1, typeFilePath :: r.2.1, Event.wrote typeFilePath :: r.2.2)
    else summaryLoop env fs totalDirPath fmt ow rest

/-- The "total" subdirectory resolution at the top of `createSummaryFile`:
use the existing directory, create it, or — when creation fails — fall back
to the output path itself. -/
def resolveTotalDir (env : Env) (fs : FS) (outputPath : String) : FS × String :=
  let totalDirPath0 := pjoin [outputPath, "total"]
  if fexists fs totalDirPath0 then (fs, totalDirPath0)
  else if env.mkdirFails totalDirPath0 then (fs, outputPath)
  else (fs.mkdirRaw totalDirPath0, totalDirPath0)

/-- Model of `createSummaryFile`: create (or fall back from) the "total"
subdirectory, group the receipts by type, and write one file per non-empty,
non-"general" group.  Returns `none` when no file was written. -/
def createSummaryFile (env : Env) (fs : FS) (receipts : List JVal)
    (outputPath fmt : String) (ow : Bool) :
    Option (List String) × FS × List Event :=
  let s := resolveTotalDir env fs outputPath
  let groups := groupReceiptsByType receipts
  let r := summaryLoop env s.1 s.2 fmt ow groups
  ((if r.2.1 ≠ [] then some r.2.1 else none), r.1, r.2.2)

/-! ### Text-extraction workflow: per-file stage -/

/-- The argument list built by `extractTextFromDocument` for `doc-to-text`
(content type, OCR tool and template, verbose flag, then `-o` and the
requested output path). -/
def textExtractArgs (documentFile textOutputFile ocrTool ocrLlmTemplate contentType : String)
    (verbose : Bool) : List String :=
  [documentFile]
    ++ (if contentType ≠ "" then ["--content-type", contentType] else [])
    ++ (if ocrTool ≠ "" && ocrTool ≠ "interactive" then
          ["--ocr", ocrTool]
            ++ (if ocrTool = "llm-caller" && ocrLlmTemplate ≠ "" then
                  ["--llm_template", ocrLlmTemplate]
                else [])
        else [])
    ++ (if verbose then ["--verbose"] else [])
    ++ ["-o", textOutputFile]

/-- The non-emptiness verification at the end of `extractTextFromDocument`:
read the output file back and require non-blank content. -/
def verifyExtractedText (fs : FS) (p : String) (ev : List Event) :
    Bool × FS × List Event :=
  match fs.readFile p with
  | none => (false, fs, ev)
  | some c => if trimStr c = "" then (false, fs, ev) else (true, fs, ev)

/-- Model of `extractTextFromDocument` from the text-extraction workflow:
invoke `doc-to-text`; if the declared output file is absent afterwards,
search the current working directory for the tool's default `text.txt`,
copy its content to the expected location and remove the found file; then
verify non-empty content. -/
def extractTextFromDocument (env : Env) (fs : FS)
    (documentFile textOutputFile ocrTool ocrLlmTemplate contentType : String)
    (verbose : Bool) : Bool × FS × List Event :=
  let args := textExtractArgs documentFile textOutputFile ocrTool ocrLlmTemplate
    contentType verbose
  let c := cliCommand env fs "doc-to-text" args
  let fx := c.1
  let fs1 := c.2.1
  let ev1 := c.2.2
  if fx.error.isSome then (false, fs1, ev1)
  else if !(fexists fs1 textOutputFile) then
    match env.cwdPath with
    | none => (false, fs1, ev1)
    | some cwdP =>
      match fs1.findAll cwdP "text.txt" with
      | [] => (false, fs1, ev1)
      | sourceFile :: _ =>
        match fs1.readFile sourceFile with
        | none => (false, fs1, ev1)
        | some content =>
          if env.writeFails textOutputFile then (false, fs1, ev1)
          else
            let fs2 := (fs1.writeRaw textOutputFile content).rm sourceFile
            verifyExtractedText fs2 textOutputFile
              (ev1 ++ [Event.wrote textOutputFile, Event.removed sourceFile])
  else verifyExtractedText fs1 textOutputFile ev1

/-! ### Receipt workflow: per-file pipeline -/

/-- The fallback fingerprint of `calculateMd5` (hashing unavailable):
basename plus wall-clock milliseconds, stripped to alphanumerics and cut to
32 characters. -/
def md5Fallback (env : Env) (s : String) : String :=
  let uniquePart := fsBasename s ++ "_" ++ toString env.timeMillis
  ((uniquePart.toList.filter Char.isAlphanum).take 32).asString

/-- Model of `calculateMd5` inside `processReceipt`: `fs.md5` on an existing
path, with the name-plus-time fallback otherwise. -/
def calculateMd5 (env : Env) (fs : FS) (s : String) : String :=
  if fexists fs s then
    match env.md5Map s with
    | some h => h
    | none => md5Fallback env s
  else md5Fallback env s

/-- The argument list built by `processReceipt` for `doc-to-text`. -/
def receiptExtractArgs (documentFile tempTextFile : String) (verbose : Bool) :
    List String :=
  [documentFile, "--content-type", "image", "--ocr", "llm-caller",
   "--llm_template", "qwen-vl-ocr-image", "-o", tempTextFile]
    ++ (if verbose then ["--verbose"] else [])

/-- The fingerprinted staging directory requested by `processReceipt`:
`dirname(outputFile)/md5(documentFile)`. -/
def receiptHashDir0 (env : Env) (fs : FS) (documentFile outputFile : String) :
    String :=
  pjoin [fsDirname outputFile, calculateMd5 env fs documentFile]

/-- Staging-directory resolution of `processReceipt`: keep the fingerprinted
directory when it exists or can be created, otherwise fall back to the
output directory itself. -/
def receiptResolveHashDir (env : Env) (fs : FS) (documentFile outputFile : String) :
    FS × String :=
  let tempDir := fsDirname outputFile
  let hashDir0 := receiptHashDir0 env fs documentFile outputFile
  if fexists fs hashDir0 then (fs, hashDir0)
  else if env.mkdirFails hashDir0 then (fs, tempDir)
  else (fs.mkdirRaw hashDir0, hashDir0)

/-- The expected intermediate-artifact path of `processReceipt` for a given
staging directory. -/
def receiptTempTextFile (documentFile hashDir : String) : String :=
  pjoin [hashDir, fsBasename documentFile ++ ".extracted.txt"]

/-- The fallback location logic of `processReceipt` when the declared
intermediate file is absent after the tool run: require a current working
directory, then look for any `.txt` file in the staging directory (the
candidate is used in place — nothing is copied or removed), and failing
that take the first `text.txt` found under the working directory. -/
def receiptFallback (env : Env) (fs : FS) (hashDir tempDir tempTextFile : String) :
    Option String :=
  match env.cwdPath with
  | none => none
  | some cwdP =>
    let t1 :=
      if hashDir ≠ tempDir ∧ fexists fs hashDir then
        if env.readdirFails hashDir then tempTextFile
        else
          match (fs.readdir hashDir).find?
              (fun e => strEndsWith e.name ".txt" && !e.isDir) with
          | some e => e.path
          | none => tempTextFile
      else tempTextFile
    if fexists fs t1 then some t1
    else
      match fs.findAll cwdP "text.txt" with
      | [] => none
      | f :: _ => some f

/-- Step 1 of `processReceipt`: resolve the staging directory; when the
fingerprinted intermediate artifact already exists, skip extraction entirely
and reuse it; otherwise run `doc-to-text` and, on a missing output, route
through the fallback locator.  Returns the path of the text to use. -/
def receiptStep1 (env : Env) (fs : FS) (documentFile outputFile : String)
    (verbose : Bool) : Option String × FS × List Event :=
  let s := receiptResolveHashDir env fs documentFile outputFile
  let fs1 := s.1
  let hashDir := s.2
  let tempDir := fsDirname outputFile
  let tempTextFile := receiptTempTextFile documentFile hashDir
  if fexists fs1 tempTextFile then (some tempTextFile, fs1, [])
  else
    let c := cliCommand env fs1 "doc-to-text"
      (receiptExtractArgs documentFile tempTextFile verbose)
    let fx := c.1
    let fs2 := c.2.1
    let ev := c.2.2
    if fx.error.isSome then (none, fs2, ev)
    else if fexists fs2 tempTextFile then (some tempTextFile, fs2, ev)
    else
      match receiptFallback env fs2 hashDir tempDir tempTextFile with
      | some t => (some t, fs2, ev)
      | none => (none, fs2, ev)

/-- Model of `readExistingReceiptData`: read and JSON-parse an existing
individual receipt file, logging (not raising) on failure. -/
def readExistingReceiptData (env : Env) (fs : FS) (p : String) :
    Option JVal × List Event :=
  match fs.readFile p with
  | none => (none, [Event.logged "failed to read existing receipt data"])
  | some c =>
    match env.parseJson c with
    | none => (none, [Event.logged "failed to parse existing receipt data"])
    | some d => (some d, [])

/-- Position of the first occurrence of `t` in `cs`, if any. -/
def listFindSub (cs t : List Char) : Option Nat :=
  (List.range (cs.length + 1)).find? (fun i => t.isPrefixOf (cs.drop i))

/-- The fenced-block extraction of `parseExtractedData`, modelling the JS
regex match for a code fence (with optional "json" tag and surrounding
whitespace): the content of the first fenced block when a complete fence
pair is present, else the whole output. -/
def extractFencedBlock (s : String) : String :=
  let cs := s.toList
  let fence := "```".toList
  match listFindSub cs fence with
  | none => s
  | some i =>
    let afterOpen := cs.drop (i + 3)
    let afterTag :=
      if "json".toList.isPrefixOf afterOpen then afterOpen.drop 4 else afterOpen
    match listFindSub afterTag fence with
    | none => s
    | some j => trimStr ((afterTag.take j).asString)

/-- JS property assignment `data[k] = v` (a primitive target is returned
unchanged, matching the silent no-op of non-strict JS). -/
def setField (d : JVal) (k : String) (v : JVal) : JVal :=
  match d with
  | .obj l => .obj (setKeyJ l k v)
  | other => other

/-- Model of `parseExtractedData`: extract the (possibly fenced) candidate,
JSON-parse it, then enrich the record with the source file name and the
extraction timestamp. -/
def parseExtractedData (env : Env) (llmOutput sourceFileName : String) :
    Option JVal :=
  match env.parseJson (extractFencedBlock llmOutput) with
  | none => none
  | some d =>
    some (setField (setField d "source_file" (.str sourceFileName))
      "extraction_timestamp" (.str env.nowIso))

/-- Steps 3-5 of `processReceipt`: call `llm-caller` on the extracted text,
require non-blank output, parse it, and persist the enriched record as
pretty-printed JSON to the final output path. -/
def receiptLlmPhase (env : Env) (fs : FS) (documentFile outputFile content : String)
    (ev : List Event) : Option JVal × FS × List Event :=
  let c := cliCommand env fs "llm-caller"
    ["call", "deepseek-ticket-extraction", "--var", "text:text:" ++ content]
  let fx := c.1
  let fs1 := c.2.1
  let ev1 := ev ++ c.2.2
  if fx.error.isSome then (none, fs1, ev1)
  else if trimStr fx.stdout = "" then (none, fs1, ev1)
  else
    match parseExtractedData env fx.stdout (fsBasename documentFile) with
    | none => (none, fs1, ev1)
    | some d =>
      if env.writeFails outputFile then (none, fs1, ev1)
      else (some d, fs1.writeRaw outputFile (env.stringify d),
            ev1 ++ [Event.wrote outputFile])

/-- Model of `processReceipt`: step 1 (extraction with caching and fallback
location), step 2 (read the text, require non-blank), then — before any LLM
call — reuse an existing parseable final output file as-is; otherwise run
the LLM phase and persist the result. -/
def processReceipt (env : Env) (fs : FS) (documentFile outputFile : String)
    (verbose : Bool) : Option JVal × FS × List Event :=
  let s1 := receiptStep1 env fs documentFile outputFile verbose
  match s1.1 with
  | none => (none, s1.2.1, s1.2.2)
  | some tempPath =>
    let fs1 := s1.2.1
    let ev := s1.2.2
    match fs1.readFile tempPath with
    | none => (none, fs1, ev)
    | some content =>
      if trimStr content = "" then (none, fs1, ev)
      else if fexists fs1 outputFile then
        let ex := readExistingReceiptData env fs1 outputFile
        match ex.1 with
        | some d => (some d, fs1, ev ++ ex.2)
        | none => receiptLlmPhase env fs1 documentFile outputFile content (ev ++ ex.2)
      else receiptLlmPhase env fs1 documentFile outputFile content ev

/-! ### Text-extraction workflow: main loop and entry point -/

/-- Per-run counters of the text-extraction workflow. -/
structure TextAcc where
  success : Nat
  failure : Nat
deriving Repr, DecidableEq

/-- One iteration of the text-extraction main loop: skip when the output
exists and overwrite is off, otherwise extract and count the outcome. -/
def textProcessFile (env : Env) (fs : FS)
    (ow isBatch : Bool) (outputPath ocrTool ocrLlmTemplate contentType : String)
    (verbose : Bool) (acc : TextAcc) (file : String) : FS × TextAcc × List Event :=
  let baseName := fsBasename file
  let outFile := determineTextOutputPath fs file baseName outputPath isBatch
  if !ow && fexists fs outFile then (fs, acc, [])
  else
    let r := extractTextFromDocument env fs file outFile ocrTool ocrLlmTemplate
      contentType verbose
    if r.1 then (r.2.1, { acc with success := acc.success + 1 }, r.2.2)
    else (r.2.1, { acc with failure := acc.failure + 1 }, r.2.2)

/-- The text-extraction main loop over the discovered files. -/
def textLoop (env : Env) (ow isBatch : Bool)
    (outputPath ocrTool ocrLlmTemplate contentType : String) (verbose : Bool) :
    FS → TextAcc → List String → FS × TextAcc × List Event
  | fs, acc, [] => (fs, acc, [])
  | fs, acc, f :: rest =>
    let r := textProcessFile env fs ow isBatch outputPath ocrTool ocrLlmTemplate
      contentType verbose acc f
    let r2 := textLoop env ow isBatch outputPath ocrTool ocrLlmTemplate
      contentType verbose r.1 r.2.1 rest
    (r2.1, r2.2.1, r.2.2 ++ r2.2.2)

/-- The pre-loop prefix of the text-extraction `main`: parameter and input
validation, output-path validation, the `doc-to-text` availability probe,
and discovery.  Returns the state reached and — when all checks pass — the
validated output path, the processing mode and the discovered files. -/
def textPreLoop (env : Env) (fs : FS)
    (input output ocrTool ocrLlmTemplate contentType : String) :
    FS × Option (String × Bool × List String) :=
  if input = "" then (fs, none)
  else if ocrTool = "llm-caller" && ocrLlmTemplate = "" then (fs, none)
  else if !(fexists fs input) then (fs, none)
  else
    let isBatch := fs.isDir input
    let v :=
      if output ≠ "" then
        match validateOutputPath env fs output isBatch with
        | (g, .ok p) => (g, some p)
        | (g, .invalid _) => (g, none)
      else (fs, some "")
    match v.2 with
    | none => (v.1, none)
    | some outputPath =>
      let ck := checkCliTool env v.1 "doc-to-text"
      if !ck.1 then (ck.2, none)
      else
        let files := (getDocumentFiles env ck.2 input textDocumentExtensions).1
        if files.length = 0 then (ck.2, none)
        else (ck.2, some (outputPath, isBatch, files))

/-- Model of the text-extraction `main`: the pre-loop checks, the per-file
loop, and the final `return true`. -/
def textMain (env : Env) (fs : FS)
    (input output ocrTool ocrLlmTemplate contentType : String)
    (ow verbose : Bool) : Bool × FS :=
  let pl := textPreLoop env fs input output ocrTool ocrLlmTemplate contentType
  match pl.2 with
  | none => (false, pl.1)
  | some (outputPath, isBatch, files) =>
    let r := textLoop env ow isBatch outputPath ocrTool ocrLlmTemplate
      contentType verbose pl.1 ⟨0, 0⟩ files
    (true, r.1)

/-- The run reaches the per-file processing loop exactly when the pre-loop
checks all pass. -/
def textReachesLoop (env : Env) (fs : FS)
    (input output ocrTool ocrLlmTemplate contentType : String) : Bool :=
  (textPreLoop env fs input output ocrTool ocrLlmTemplate contentType).2.isSome

/-! ### Receipt workflow: main loop and entry point -/

/-- Per-run counters and the aggregation collection of the receipt
workflow. -/
structure RunAcc where
  success : Nat
  failure : Nat
  skipped : Nat
  receipts : List JVal
deriving Repr

/-- One iteration of the receipt main loop.  When overwrite is off and the
individual output exists, the file is skipped: the existing output is
re-read and re-parsed, and on success its payload joins the aggregation
collection and the skipped counter increments; on failure nothing is
counted.  Otherwise the receipt pipeline runs and success/failure is
counted (successful payloads join the aggregation only in batch mode). -/
def receiptProcessFile (env : Env) (fs : FS) (ow isBatch : Bool)
    (outputPath : String) (verbose : Bool) (acc : RunAcc) (file : String) :
    FS × RunAcc × List Event :=
  let baseName := fsBasename file
  let outFile := determineReceiptOutputPath fs file baseName outputPath isBatch
  if !ow && fexists fs outFile then
    let ex := readExistingReceiptData env fs outFile
    match ex.1 with
    | some d =>
      (fs, { acc with receipts := acc.receipts ++ [d], skipped := acc.skipped + 1 },
       ex.2)
    | none => (fs, acc, ex.2)
  else
    let r := processReceipt env fs file outFile verbose
    match r.1 with
    | some d =>
      (r.2.1,
       { acc with success := acc.success + 1,
                  receipts := acc.receipts ++ (if isBatch then [d] else []) },
       r.2.2)
    | none => (r.2.1, { acc with failure := acc.failure + 1 }, r.2.2)

/-- The receipt main loop over the discovered files. -/
def receiptLoop (env : Env) (ow isBatch : Bool) (outputPath : String)
    (verbose : Bool) : FS → RunAcc → List String → FS × RunAcc × List Event
  | fs, acc, [] => (fs, acc, [])
  | fs, acc, f :: rest =>
    let r := receiptProcessFile env fs ow isBatch outputPath verbose acc f
    let r2 := receiptLoop env ow isBatch outputPath verbose r.1 r.2.1 rest
    (r2.1, r2.2.1, r.2.2 ++ r2.2.2)

/-- The pre-loop prefix of the receipt-processor `main`: input validation,
output-path validation, the two tool availability probes, and discovery. -/
def receiptPreLoop (env : Env) (fs : FS) (input output : String) :
    FS × Option (String × Bool × List String) :=
  if input = "" then (fs, none)
  else if !(fexists fs input) then (fs, none)
  else
    let isBatch := fs.isDir input
    let v :=
      if output ≠ "" then
        match validateOutputPath env fs output isBatch with
        | (g, .ok p) => (g, some p)
        | (g, .invalid _) => (g, none)
      else (fs, some "")
    match v.2 with
    | none => (v.1, none)
    | some outputPath =>
      let ck1 := checkCliTool env v.1 "doc-to-text"
      if !ck1.1 then (ck1.2, none)
      else
        let ck2 := checkCliTool env ck1.2 "llm-caller"
        if !ck2.1 then (ck2.2, none)
        else
          let files := (getDocumentFilesR env ck2.2 input
            receiptDocumentExtensions).1
          if files.length = 0 then (ck2.2, none)
          else (ck2.2, some (outputPath, isBatch, files))

/-- Model of the receipt-processor `main`: the pre-loop checks, the
per-file loop, summary-file creation in batch mode, and the final
`return true`. -/
def receiptMain (env : Env) (fs : FS) (input output fmt : String)
    (ow verbose : Bool) : Bool × FS :=
  let pl := receiptPreLoop env fs input output
  match pl.2 with
  | none => (false, pl.1)
  | some (outputPath, isBatch, files) =>
    let r := receiptLoop env ow isBatch outputPath verbose pl.1
      ⟨0, 0, 0, []⟩ files
    let acc := r.2.1
    let fs4 :=
      if isBatch && acc.receipts.length > 0 then
        let summaryOutputPath := if outputPath ≠ "" then outputPath else input
        (createSummaryFile env r.1 acc.receipts summaryOutputPath fmt ow).2.1
      else r.1
    (true, fs4)

/-- The run reaches the per-file processing loop exactly when the pre-loop
checks all pass. -/
def receiptReachesLoop (env : Env) (fs : FS) (input output : String) : Bool :=
  (receiptPreLoop env fs input output).2.isSome

/-! ### Concrete states used by witnesses and counterexamples -/

/-- A scalar (neither object nor array) value: the shape of the entries of
an already-flat record. -/
def isScalar : JVal → Bool
  | .obj _ => false
  | .arr _ => false
  | _ => true

/-- A neutral oracle environment: tools answer the probe with help output
and otherwise fail, nothing else fails, hashing and parsing are empty. -/
def baseEnv : Env where
  runTool := fun _ args =>
    if args = ["-h"] then ⟨none, "usage", "", []⟩ else ⟨some "unexpected invocation", "", "", []⟩
  absMap := fun _ => none
  mkdirFails := fun _ => false
  writeFails := fun _ => false
  readdirFails := fun _ => false
  cwdPath := some "/cwd"
  md5Map := fun _ => none
  timeMillis := 7
  parseJson := fun _ => none
  stringify := fun _ => "SERIALIZED"
  nowIso := "2024-01-01T00:00:00Z"

/-- A receipt record whose discriminant contains a hyphen. -/
def hyphenReceipt : JVal := .obj [("type-code", .str "taxi-receipt")]

/-- A receipt record with discriminant "taxi". -/
def taxiReceipt : JVal := .obj [("type-code", .str "taxi"), ("amount", .num 5)]

/-- An output directory holding nothing yet. -/
def summaryFS : FS := ⟨[], ["/out"]⟩

/-- An already-flat record carrying the discriminant. -/
def flatRecordSample : List (String × JVal) :=
  [("type-code", .str "taxi"), ("amount", .num 5), ("vendor", .str "v")]

/-- A filesystem without the discovery root. -/
def fsNoRoot : FS := ⟨[], []⟩

/-- A filesystem whose discovery root is an existing, listable, empty
directory. -/
def fsEmptyRoot : FS := ⟨[], ["/in"]⟩

/-- An environment whose directory listings always fail. -/
def failEnv : Env := { baseEnv with readdirFails := fun _ => true }

/-- A root directory whose only video file sits inside a subdirectory. -/
def fsNested : FS := ⟨[("/in/sub/a.mp4", "v")], ["/in", "/in/sub"]⟩

/-- A root directory with one matching document at the top level and one in
a subdirectory. -/
def fsDocRoot : FS :=
  ⟨[("/in/b.pdf", "doc"), ("/in/sub/c.pdf", "doc"), ("/in/notes", "x")],
   ["/in", "/in/sub"]⟩

/-- An environment for the receipt pipeline in which hashing succeeds for
the sample document and the existing final output parses. -/
def cacheEnv : Env :=
  { baseEnv with
    md5Map := fun p => if p = "/in/a.jpg" then some "h1" else none
    parseJson := fun s => if s = "VALID" then some taxiReceipt else none }

/-- A state in which both the fingerprinted intermediate artifact and a
valid final output already exist for the sample document. -/
def cacheFS : FS :=
  ⟨[("/in/a.jpg", "IMG"), ("/out/h1/a.extracted.txt", "text"),
    ("/out/a.receipt.json", "VALID")],
   ["/in", "/out", "/out/h1"]⟩

/-- The filesystem after the text workflow's `doc-to-text` invocation (the
tool's own writes applied). -/
def textPostFS (env : Env) (fs : FS)
    (doc out ocrTool tpl ct : String) (vb : Bool) : FS :=
  applyWrites fs (env.runTool "doc-to-text" (textExtractArgs doc out ocrTool tpl ct vb)).writes

/-- The filesystem after the receipt workflow's `doc-to-text` invocation. -/
def receiptPostFS (env : Env) (fs : FS) (doc temp : String) (vb : Bool) : FS :=
  applyWrites fs (env.runTool "doc-to-text" (receiptExtractArgs doc temp vb)).writes

/-- An environment in which the receipt extraction tool succeeds but writes
its output as `found.txt` inside the staging directory rather than at the
requested path. -/
def locEnv : Env :=
  { baseEnv with
    md5Map := fun p => if p = "/in/b.jpg" then some "h2" else none
    runTool := fun t _ =>
      if t = "doc-to-text" then ⟨none, "", "", [("/out/h2/found.txt", "hello")]⟩
      else ⟨some "unexpected invocation", "", "", []⟩ }

/-- A state for the receipt fallback scenario: the staging directory for the
sample document already exists and is empty. -/
def locFS : FS := ⟨[("/in/b.jpg", "IMG")], ["/in", "/out", "/out/h2"]⟩

/-- An environment in which the text extraction tool succeeds but writes the
default `text.txt` under the working directory instead of the requested
output path. -/
def relocEnv : Env :=
  { baseEnv with
    runTool := fun t _ =>
      if t = "doc-to-text" then ⟨none, "", "", [("/cwd/x/text.txt", "hello")]⟩
      else ⟨some "unexpected invocation", "", "", []⟩ }

/-- A state for the text fallback scenario. -/
def relocFS : FS := ⟨[("/in/d.pdf", "doc")], ["/in", "/out", "/cwd", "/cwd/x"]⟩

/-- An environment in which the extraction tool reports success but writes
nothing anywhere. -/
def noOutputEnv : Env :=
  { baseEnv with
    md5Map := fun p => if p = "/in/b.jpg" then some "h2" else none
    runTool := fun t _ =>
      if t = "doc-to-text" then ⟨none, "", "", []⟩
      else ⟨some "unexpected invocation", "", "", []⟩ }

/-- A state whose existing individual receipt file does not parse. -/
def badFS : FS :=
  ⟨[("/in/a.jpg", "IMG"), ("/out/a.receipt.json", "GARBAGE")], ["/in", "/out"]⟩

/-- An environment in which the receipt extraction tool succeeds but writes
its output as the default `text.txt` under the working directory, leaving
the staging directory empty. -/
def cwdLocEnv : Env :=
  { baseEnv with
    md5Map := fun p => if p = "/in/b.jpg" then some "h2" else none
    runTool := fun t _ =>
      if t = "doc-to-text" then ⟨none, "", "", [("/cwd/y/text.txt", "hi")]⟩
      else ⟨some "unexpected invocation", "", "", []⟩ }

/-- An environment in which every directory creation fails. -/
def mkdirFailEnv : Env := { baseEnv with mkdirFails := fun _ => true }

/-! ## Theorems -/

/-- Every path collected by the summary loop lies in the summary directory
and carries a name derived from a group discriminant via
`sanitizeFileName`. -/
theorem summaryLoop_mem_shape (env : Env) (dir fmt : String) (ow : Bool) :
    ∀ (groups : List (String × List JVal)) (fs : FS) (p : String),
      p ∈ (summaryLoop env fs dir fmt ow groups).2.1 →
      ∃ t, t ∈ groups.map Prod.fst ∧
        p = pjoin [dir, "receipts_" ++ sanitizeFileName t ++ "." ++
          (if fmt = "csv" then "csv" else "json")] := by
  intro groups
  induction groups with
  | nil =>
    intro fs p hp
    simp [summaryLoop] at hp
  | cons g rest ih =>
    intro fs p hp
    obtain ⟨t, rs⟩ := g
    simp only [summaryLoop] at hp
    set E := (if fmt = "csv" then "csv" else "json") with hE
    repeat' split at hp
    all_goals
      first
        | (obtain ⟨u, hu, he⟩ := ih _ _ hp
           exact ⟨u, by simp [hu], he⟩)
        | (rcases List.mem_cons.mp hp with h | h
           · exact ⟨t, by simp, h⟩
           · obtain ⟨u, hu, he⟩ := ih _ _ h
             exact ⟨u, by simp [hu], he⟩)

/-- Claim C8 (counterexample): the discriminant "taxi-receipt" contains a
hyphen; the code-derived summary file name keeps the hyphen, while the
claimed rule (collapse every non-alphanumeric run to an underscore) would
produce "taxi_receipt", so the claim is false at this input. -/
theorem claim_C8_counterexample :
    (createSummaryFile baseEnv summaryFS [hyphenReceipt] "/out" "json" false).1 =
        some ["/out/total/receipts_taxi-receipt.json"]
      ∧ specSanitizeFileName "taxi-receipt" = "taxi_receipt"
      ∧ sanitizeFileName "taxi-receipt" ≠ specSanitizeFileName "taxi-receipt" := by
  exact ⟨by decide, by decide, by decide⟩

/-- Claim C8 (amended): every summary file written for a non-empty,
non-default group is placed in the dedicated "total" subdirectory of the
output location (provided that directory exists or can be created), and its
name is derived from the group discriminant by `sanitizeFileName`, which
lower-cases, maps every character outside lower-case letters, digits,
underscore and hyphen to an underscore (hyphens are preserved), collapses
underscore runs, and strips one leading and one trailing underscore. -/
theorem claim_C8_amended (env : Env) (fs : FS) (receipts : List JVal)
    (outputPath fmt : String) (ow : Bool) (res : List String)
    (hdir : fexists fs (pjoin [outputPath, "total"]) = true ∨
      env.mkdirFails (pjoin [outputPath, "total"]) = false)
    (hres : (createSummaryFile env fs receipts outputPath fmt ow).1 = some res) :
    ∀ p ∈ res, ∃ t, t ∈ (groupReceiptsByType receipts).map Prod.fst ∧
      p = pjoin [pjoin [outputPath, "total"],
        "receipts_" ++ sanitizeFileName t ++ "." ++
          (if fmt = "csv" then "csv" else "json")] := by
  intro p hp
  have hdir2 : (resolveTotalDir env fs outputPath).2 = pjoin [outputPath, "total"] := by
    unfold resolveTotalDir
    rcases hdir with h | h
    · rw [if_pos h]
    · by_cases hex : fexists fs (pjoin [outputPath, "total"]) = true
      · rw [if_pos hex]
      · rw [if_neg hex, if_neg (by simp [h])]
  simp only [createSummaryFile, hdir2] at hres
  split at hres
  · rw [Option.some.injEq] at hres
    subst hres
    exact summaryLoop_mem_shape env (pjoin [outputPath, "total"]) fmt ow
      (groupReceiptsByType receipts) (resolveTotalDir env fs outputPath).1 p hp
  · exact absurd hres (by simp)

/-- Claim C8 (witness): the amended theorem applied to a concrete batch with
one "taxi" receipt. -/
theorem claim_C8_witness :
    ((createSummaryFile baseEnv summaryFS [taxiReceipt] "/out" "json" false).1 =
        some ["/out/total/receipts_taxi.json"]
      ∧ baseEnv.mkdirFails (pjoin ["/out", "total"]) = false)
      ∧ (∃ t, t ∈ (groupReceiptsByType [taxiReceipt]).map Prod.fst ∧
          "/out/total/receipts_taxi.json" = pjoin [pjoin ["/out", "total"],
            "receipts_" ++ sanitizeFileName t ++ "." ++
              (if "json" = "csv" then "csv" else "json")]) := by
  refine ⟨⟨by decide, by decide⟩, ?_⟩
  exact claim_C8_amended baseEnv summaryFS [taxiReceipt] "/out" "json" false
    ["/out/total/receipts_taxi.json"] (Or.inr (by decide)) (by decide)
    "/out/total/receipts_taxi.json" (by decide)

/-- A key absent from the accumulator is appended by `setKeyJ`. -/
theorem setKeyJ_not_mem (acc : List (String × JVal)) (k : String) (v : JVal)
    (h : acc.any (fun q => q.1 = k) = false) :
    setKeyJ acc k v = acc ++ [(k, v)] := by
  simp [setKeyJ, h]

/-- On a record whose values are all scalars and whose keys are distinct and
disjoint from the accumulator, the flattening loop appends the record with
only the discriminant removed. -/
theorem flattenInto_flat :
    ∀ (l acc : List (String × JVal)),
      (l.map Prod.fst).Nodup →
      (∀ q ∈ l, isScalar q.2 = true) →
      (∀ q ∈ l, acc.any (fun a => a.1 = q.1) = false) →
      flattenInto acc l "" = acc ++ l.filter (fun q => q.1 ≠ "type-code") := by
  intro l
  induction l with
  | nil =>
    intro acc _ _ _
    simp [flattenInto]
  | cons q rest ih =>
    intro acc hnd hsc hdisj
    obtain ⟨k, v⟩ := q
    have hnd' : k ∉ rest.map Prod.fst ∧ (rest.map Prod.fst).Nodup := by
      rw [List.map_cons] at hnd
      exact List.nodup_cons.mp hnd
    have hndr := hnd'.2
    have hscr : ∀ q ∈ rest, isScalar q.2 = true := fun q hq => hsc q (by simp [hq])
    have hkrest : ∀ q ∈ rest, k ≠ q.1 := by
      intro q hq he
      exact hnd'.1 (he ▸ List.mem_map_of_mem Prod.fst hq)
    by_cases hk : k = "type-code"
    · subst hk
      rw [show flattenInto acc (("type-code", v) :: rest) "" =
          flattenInto acc rest "" by rw [flattenInto.eq_def]; simp]
      rw [ih acc hndr hscr (fun q hq => hdisj q (by simp [hq]))]
      simp
    · have hstep : flattenInto acc ((k, v) :: rest) "" =
          flattenInto (setKeyJ acc k v) rest "" := by
        rw [flattenInto.eq_def]
        cases v with
        | obj vs => exact absurd (hsc (k, .obj vs) (by simp)) (by simp [isScalar])
        | arr es => exact absurd (hsc (k, .arr es) (by simp)) (by simp [isScalar])
        | null => simp [hk]
        | bool b => simp [hk]
        | num n => simp [hk]
        | str s => simp [hk]
      rw [hstep, setKeyJ_not_mem acc k v (hdisj (k, v) (by simp))]
      rw [ih (acc ++ [(k, v)]) hndr hscr ?_]
      · simp [hk]
      · intro q hq
        have h1 := hdisj q (by simp [hq])
        have h2 := hkrest q hq
        simp [List.any_append, h1, h2]

/-- Claim C9: flattening an already-flat record (no nested-object and no
array values, duplicate-free keys) yields the same record unchanged except
that the discriminant field "type-code" is removed. -/
theorem claim_C9 (l : List (String × JVal)) (hnd : (l.map Prod.fst).Nodup)
    (hflat : ∀ q ∈ l, isScalar q.2 = true) :
    flattenObject l "" = l.filter (fun q => q.1 ≠ "type-code") := by
  unfold flattenObject
  exact flattenInto_flat l [] hnd hflat (fun q _ => rfl)

/-- Claim C9 (witness): the theorem applied to a concrete flat receipt
record. -/
theorem claim_C9_witness :
    ((flatRecordSample.map Prod.fst).Nodup
      ∧ (∀ q ∈ flatRecordSample, isScalar q.2 = true))
    ∧ flattenObject flatRecordSample "" =
        flatRecordSample.filter (fun q => q.1 ≠ "type-code") :=
  ⟨⟨by decide, by decide⟩, claim_C9 flatRecordSample (by decide) (by decide)⟩

/-- Claim C5 (counterexample): on a nonexistent root and on an existing,
listable root with zero matching files, `getDocumentFiles` returns the same
value to its caller — the empty list — so the discovery error is not
distinguishable by the caller from zero matches. -/
theorem claim_C5_counterexample :
    (getDocumentFiles baseEnv fsNoRoot "/in" textDocumentExtensions).1 =
        (getDocumentFiles baseEnv fsEmptyRoot "/in" textDocumentExtensions).1
      ∧ (getDocumentFiles baseEnv fsNoRoot "/in" textDocumentExtensions).1 = []
      ∧ fexists fsNoRoot "/in" = false
      ∧ FS.isDir fsEmptyRoot "/in" = true
      ∧ baseEnv.readdirFails "/in" = false := by
  exact ⟨by decide, by decide, by decide, by decide, by decide⟩

/-- Claim C5 (amended): when the root does not exist, or when it is a
directory whose listing fails, Discovery returns the empty set and logs a
console error message; the error is not part of the returned value, so the
caller sees the same empty list as for zero matches. -/
theorem claim_C5_amended (env : Env) (fs : FS) (root : String)
    (exts : List String) :
    (fexists fs root = false →
      getDocumentFiles env fs root exts =
        ([], [Event.logged "cannot access input path"]))
    ∧ (fexists fs root = true → FS.isDir fs root = true →
        env.readdirFails root = true →
      getDocumentFiles env fs root exts =
        ([], [Event.logged "failed to list directory"])) := by
  constructor
  · intro h
    simp [getDocumentFiles, h]
  · intro h1 h2 h3
    simp [getDocumentFiles, h1, h2, h3, List.insertionSort]

/-- Claim C5 (witness): the amended theorem applied to a missing root and to
a root with a failing listing. -/
theorem claim_C5_witness :
    (fexists fsNoRoot "/in" = false
      ∧ getDocumentFiles baseEnv fsNoRoot "/in" textDocumentExtensions =
          ([], [Event.logged "cannot access input path"]))
    ∧ (fexists fsEmptyRoot "/in" = true ∧ FS.isDir fsEmptyRoot "/in" = true
      ∧ failEnv.readdirFails "/in" = true
      ∧ getDocumentFiles failEnv fsEmptyRoot "/in" textDocumentExtensions =
          ([], [Event.logged "failed to list directory"])) :=
  ⟨⟨by decide,
    (claim_C5_amended baseEnv fsNoRoot "/in" textDocumentExtensions).1 (by decide)⟩,
   ⟨by decide, by decide, by decide,
    (claim_C5_amended failEnv fsEmptyRoot "/in" textDocumentExtensions).2
      (by decide) (by decide) (by decide)⟩⟩

/-- Membership in the document discovery of a directory root: exactly the
direct (top-level) regular files with allow-listed extensions. -/
theorem getDocumentFiles_dir_mem (env : Env) (fs : FS) (root : String)
    (exts : List String) (p : String) (hdir : FS.isDir fs root = true)
    (hrf : env.readdirFails root = false) :
    p ∈ (getDocumentFiles env fs root exts).1 ↔
      ∃ c, ((p, c) ∈ fs.files ∧ fsDirname p = root)
        ∧ isDocumentFile p exts = true := by
  have hex : fexists fs root = true := by simp [fexists, hdir]
  simp [getDocumentFiles, hex, hdir, hrf, FS.readdir, List.mem_insertionSort,
    List.mem_map, List.mem_filter, List.mem_append]
  constructor
  · rintro (⟨a, ⟨⟨a1, ⟨hx, hdn⟩, rfl⟩, _, hdoc⟩, rfl⟩ |
        ⟨a, ⟨⟨a1, _, rfl⟩, hfalse, _⟩, _⟩)
    · exact ⟨⟨hx, hdn⟩, hdoc⟩
    · simp at hfalse
  · rintro ⟨⟨hx, hdn⟩, hdoc⟩
    exact Or.inl ⟨⟨fsFilename p, p, false⟩, ⟨⟨p, ⟨hx, hdn⟩, rfl⟩, rfl, hdoc⟩, rfl⟩

/-- Membership in the receipt-variant document discovery of a directory
root. -/
theorem getDocumentFilesR_dir_mem (env : Env) (fs : FS) (root : String)
    (exts : List String) (p : String) (hdir : FS.isDir fs root = true)
    (hrf : env.readdirFails root = false) :
    p ∈ (getDocumentFilesR env fs root exts).1 ↔
      ∃ c, ((p, c) ∈ fs.files ∧ fsDirname p = root)
        ∧ isDocumentFileR p exts = true := by
  have hex : fexists fs root = true := by simp [fexists, hdir]
  simp [getDocumentFilesR, hex, hdir, hrf, FS.readdir, List.mem_insertionSort,
    List.mem_map, List.mem_filter, List.mem_append]
  constructor
  · rintro (⟨a, ⟨⟨a1, ⟨hx, hdn⟩, rfl⟩, _, hdoc⟩, rfl⟩ |
        ⟨a, ⟨⟨a1, _, rfl⟩, hfalse, _⟩, _⟩)
    · exact ⟨⟨hx, hdn⟩, hdoc⟩
    · simp at hfalse
  · rintro ⟨⟨hx, hdn⟩, hdoc⟩
    exact Or.inl ⟨⟨fsFilename p, p, false⟩, ⟨⟨p, ⟨hx, hdn⟩, rfl⟩, rfl, hdoc⟩, rfl⟩

/-- Membership in the video discovery of a directory root: exactly the
regular files anywhere strictly below the root, at any depth, with
allow-listed extensions. -/
theorem getVideoFiles_dir_mem (fs : FS) (root : String) (exts : List String)
    (p : String) (hdir : FS.isDir fs root = true) :
    p ∈ getVideoFiles fs root exts ↔
      (p ∈ fs.files.map Prod.fst ∧ strStartsWith p (root ++ "/") = true)
        ∧ FS.isFile fs p = true ∧ isVideoFile p exts = true := by
  have hex : fexists fs root = true := by simp [fexists, hdir]
  simp [getVideoFiles, hex, hdir, FS.findAll, matchPattern,
    List.mem_insertionSort, List.mem_map, List.mem_filter]
  tauto

/-- Claim C4 (counterexample): with the only matching video file inside a
subdirectory of the root, the video pipeline's discovery still returns it,
so discovery does not list only the directory's direct entries in every
pipeline. -/
theorem claim_C4_counterexample :
    FS.isDir fsNested "/in" = true
      ∧ getVideoFiles fsNested "/in" videoExtensions = ["/in/sub/a.mp4"]
      ∧ fsDirname "/in/sub/a.mp4" ≠ "/in" := by
  exact ⟨by decide, by decide, by decide⟩

/-- Claim C4 (amended): for a directory root, the three document pipelines
list only the root's direct entries and include each regular-file entry
whose extension is allow-listed (the text-extraction and contract-review
scripts define a textually identical discovery function, modelled once as
`getDocumentFiles`; the receipt processor's variant is `getDocumentFilesR`);
the media pipeline instead searches the root recursively and includes every
regular file at any depth below the root whose extension is allow-listed. -/
theorem claim_C4_amended (env : Env) (fs : FS) (root : String)
    (exts : List String) (hdir : FS.isDir fs root = true) :
    (∀ p ∈ (getDocumentFiles env fs root exts).1,
        fsDirname p = root ∧ FS.isFile fs p = true
          ∧ isDocumentFile p exts = true)
    ∧ (env.readdirFails root = false →
        ∀ q ∈ fs.files, fsDirname q.1 = root → isDocumentFile q.1 exts = true →
          q.1 ∈ (getDocumentFiles env fs root exts).1)
    ∧ (∀ p ∈ (getDocumentFilesR env fs root exts).1,
        fsDirname p = root ∧ FS.isFile fs p = true
          ∧ isDocumentFileR p exts = true)
    ∧ (env.readdirFails root = false →
        ∀ q ∈ fs.files, fsDirname q.1 = root → isDocumentFileR q.1 exts = true →
          q.1 ∈ (getDocumentFilesR env fs root exts).1)
    ∧ (∀ p ∈ getVideoFiles fs root exts,
        FS.isFile fs p = true ∧ isVideoFile p exts = true
          ∧ strStartsWith p (root ++ "/") = true)
    ∧ (∀ p, FS.isFile fs p = true → strStartsWith p (root ++ "/") = true →
        isVideoFile p exts = true → p ∈ getVideoFiles fs root exts) := by
  refine ⟨?_, ?_, ?_, ?_, ?_, ?_⟩
  · intro p hp
    by_cases hrf : env.readdirFails root = true
    · have hex : fexists fs root = true := by simp [fexists, hdir]
      simp [getDocumentFiles, hex, hdir, hrf, List.insertionSort] at hp
    · obtain ⟨c, ⟨hmem, hdn⟩, hdoc⟩ :=
        (getDocumentFiles_dir_mem env fs root exts p hdir
          (Bool.not_eq_true _ ▸ hrf)).mp hp
      refine ⟨hdn, ?_, hdoc⟩
      simp only [FS.isFile, List.any_eq_true]
      exact ⟨(p, c), hmem, by simp⟩
  · intro hrf q hq hdn hdoc
    exact (getDocumentFiles_dir_mem env fs root exts q.1 hdir hrf).mpr
      ⟨q.2, ⟨hq, hdn⟩, hdoc⟩
  · intro p hp
    by_cases hrf : env.readdirFails root = true
    · have hex : fexists fs root = true := by simp [fexists, hdir]
      simp [getDocumentFilesR, hex, hdir, hrf, List.insertionSort] at hp
    · obtain ⟨c, ⟨hmem, hdn⟩, hdoc⟩ :=
        (getDocumentFilesR_dir_mem env fs root exts p hdir
          (Bool.not_eq_true _ ▸ hrf)).mp hp
      refine ⟨hdn, ?_, hdoc⟩
      simp only [FS.isFile, List.any_eq_true]
      exact ⟨(p, c), hmem, by simp⟩
  · intro hrf q hq hdn hdoc
    exact (getDocumentFilesR_dir_mem env fs root exts q.1 hdir hrf).mpr
      ⟨q.2, ⟨hq, hdn⟩, hdoc⟩
  · intro p hp
    obtain ⟨⟨_, hpre⟩, hfile, hvid⟩ :=
      (getVideoFiles_dir_mem fs root exts p hdir).mp hp
    exact ⟨hfile, hvid, hpre⟩
  · intro p hfile hpre hvid
    have hmap : p ∈ fs.files.map Prod.fst := by
      have hf2 := hfile
      simp only [FS.isFile, List.any_eq_true, decide_eq_true_eq] at hf2
      obtain ⟨q, hq, he⟩ := hf2
      exact List.mem_map.mpr ⟨q, hq, he⟩
    exact (getVideoFiles_dir_mem fs root exts p hdir).mpr ⟨⟨hmap, hpre⟩, hfile, hvid⟩

/-- Claim C4 (witness): the amended theorem applied to a concrete document
root (direct entry, in both document-discovery variants) and a concrete
video root (nested entry). -/
theorem claim_C4_witness :
    (FS.isDir fsDocRoot "/in" = true
      ∧ fsDirname "/in/b.pdf" = "/in" ∧ FS.isFile fsDocRoot "/in/b.pdf" = true
      ∧ isDocumentFile "/in/b.pdf" textDocumentExtensions = true)
    ∧ (fsDirname "/in/b.pdf" = "/in" ∧ FS.isFile fsDocRoot "/in/b.pdf" = true
      ∧ isDocumentFileR "/in/b.pdf" receiptDocumentExtensions = true)
    ∧ (FS.isDir fsNested "/in" = true
      ∧ "/in/sub/a.mp4" ∈ getVideoFiles fsNested "/in" videoExtensions) := by
  refine ⟨⟨by decide, ?_⟩, ?_, ⟨by decide, ?_⟩⟩
  · exact (claim_C4_amended baseEnv fsDocRoot "/in" textDocumentExtensions
      (by decide)).1 "/in/b.pdf" (by decide)
  · exact (claim_C4_amended baseEnv fsDocRoot "/in" receiptDocumentExtensions
      (by decide)).2.2.1 "/in/b.pdf" (by decide)
  · exact (claim_C4_amended baseEnv fsNested "/in" videoExtensions
      (by decide)).2.2.2.2.2 "/in/sub/a.mp4" (by decide) (by decide) (by decide)

/-- Claim C1 (counterexample): with overwrite=true, a file whose final
output already exists with valid content is re-run through the receipt
pipeline (the skip branch is bypassed and success is counted), but the
pipeline reuses the existing parsed output: no tool is invoked, nothing is
written, and the filesystem — including the final output file — is left
unchanged, so the final output is not regenerated. -/
theorem claim_C1_counterexample :
    (receiptProcessFile cacheEnv cacheFS true true "/out" false
        ⟨0, 0, 0, []⟩ "/in/a.jpg").2.2 = []
      ∧ (receiptProcessFile cacheEnv cacheFS true true "/out" false
          ⟨0, 0, 0, []⟩ "/in/a.jpg").1 = cacheFS
      ∧ (receiptProcessFile cacheEnv cacheFS true true "/out" false
          ⟨0, 0, 0, []⟩ "/in/a.jpg").2.1.success = 1
      ∧ fexists cacheFS (determineReceiptOutputPath cacheFS "/in/a.jpg"
          (fsBasename "/in/a.jpg") "/out" true) = true := by
  exact ⟨by decide, by decide, by decide, by decide⟩

/-- Claim C1 (amended): the extraction stage is skipped and the cached text
reused whenever the fingerprinted intermediate artifact already exists (the
pipeline takes no overwrite flag at all, so this holds regardless of it);
and when the final output also already exists and parses, the pipeline run
triggered by overwrite=true returns the existing payload without invoking
any tool or writing anything — the final output is regenerated only when it
is missing or unparseable. -/
theorem claim_C1_amended (env : Env) (fs : FS) (doc out : String) (vb : Bool)
    (hhd : fexists fs (receiptHashDir0 env fs doc out) = true)
    (hcache : fexists fs
      (receiptTempTextFile doc (receiptHashDir0 env fs doc out)) = true) :
    receiptStep1 env fs doc out vb =
      (some (receiptTempTextFile doc (receiptHashDir0 env fs doc out)), fs, [])
    ∧ (∀ content d,
        fs.readFile (receiptTempTextFile doc (receiptHashDir0 env fs doc out)) =
            some content →
        trimStr content ≠ "" →
        fexists fs out = true →
        readExistingReceiptData env fs out = (some d, []) →
        processReceipt env fs doc out vb = (some d, fs, [])) := by
  have hstep : receiptStep1 env fs doc out vb =
      (some (receiptTempTextFile doc (receiptHashDir0 env fs doc out)), fs, []) := by
    simp only [receiptStep1, receiptResolveHashDir, hhd, if_true, hcache]
  refine ⟨hstep, ?_⟩
  intro content d hc hne hex hparse
  simp only [processReceipt, hstep, hc, hne, if_neg, hex, if_true, hparse,
    List.nil_append, List.append_nil]
  simp

/-- Claim C1 (witness): the amended theorem applied to the concrete cached
state. -/
theorem claim_C1_witness :
    (fexists cacheFS (receiptHashDir0 cacheEnv cacheFS "/in/a.jpg"
        "/out/a.receipt.json") = true
      ∧ fexists cacheFS (receiptTempTextFile "/in/a.jpg"
          (receiptHashDir0 cacheEnv cacheFS "/in/a.jpg" "/out/a.receipt.json")) = true)
    ∧ processReceipt cacheEnv cacheFS "/in/a.jpg" "/out/a.receipt.json" false =
        (some taxiReceipt, cacheFS, []) := by
  refine ⟨⟨by decide, by decide⟩, ?_⟩
  exact (claim_C1_amended cacheEnv cacheFS "/in/a.jpg" "/out/a.receipt.json" false
      (by decide) (by decide)).2
    "text" taxiReceipt (by rfl) (by decide) (by decide) (by rfl)

/-- In-place update of an association list: looking up the updated key finds
the new value. -/
theorem find?_update (l : List (String × String)) (p c : String)
    (hany : l.any (fun q => q.1 = p) = true) :
    (l.map (fun q => if q.1 = p then (p, c) else q)).find?
      (fun q => q.1 = p) = some (p, c) := by
  induction l with
  | nil => simp at hany
  | cons a rest ih =>
    by_cases h : a.1 = p
    · simp [h]
    · have h2 : rest.any (fun q => q.1 = p) = true := by
        simpa [h] using hany
      simp [h, ih h2]

/-- Appending a fresh key to an association list: looking it up finds the
new value. -/
theorem find?_snoc_self (l : List (String × String)) (p c : String)
    (hnone : l.any (fun q => q.1 = p) = false) :
    (l ++ [(p, c)]).find? (fun q => q.1 = p) = some (p, c) := by
  induction l with
  | nil => simp
  | cons a rest ih =>
    have h : ¬ a.1 = p := by
      intro he
      simp [he] at hnone
    have h2 : rest.any (fun q => q.1 = p) = false := by
      simpa [h] using hnone
    simp [h, ih h2]

/-- Reading back a just-written file returns the written content. -/
theorem FS.readFile_writeRaw_self (fs : FS) (p c : String) :
    (fs.writeRaw p c).readFile p = some c := by
  unfold FS.writeRaw FS.readFile
  split
  · rename_i hany
    show ((fs.files.map fun q => if q.1 = p then (p, c) else q).find?
      (fun q => q.1 = p)).map (fun q => q.2) = some c
    rw [find?_update fs.files p c hany]
    rfl
  · rename_i hany
    have h0 : fs.files.any (fun q => q.1 = p) = false := by
      revert hany
      cases fs.files.any (fun q => q.1 = p) <;> simp
    show ((fs.files ++ [(p, c)]).find? (fun q => q.1 = p)).map (fun q => q.2) =
      some c
    rw [find?_snoc_self fs.files p c h0]
    rfl

/-- Filtering out one key does not change the lookup of a different key. -/
theorem find?_filter_ne (l : List (String × String)) (p q : String)
    (h : q ≠ p) :
    (l.filter (fun x => x.1 ≠ p)).find? (fun x => x.1 = q) =
      l.find? (fun x => x.1 = q) := by
  induction l with
  | nil => simp
  | cons a rest ih =>
    by_cases hq : a.1 = q
    · have hap : ¬ a.1 = p := fun he => h (hq.symm.trans he)
      rw [List.filter_cons_of_pos (by simpa using hap)]
      rw [List.find?_cons_of_pos _ (by simpa using hq),
        List.find?_cons_of_pos _ (by simpa using hq)]
    · by_cases hp : a.1 = p
      · rw [List.filter_cons_of_neg (by simpa using hp),
          List.find?_cons_of_neg _ (by simpa using hq)]
        exact ih
      · rw [List.filter_cons_of_pos (by simpa using hp),
          List.find?_cons_of_neg _ (by simpa using hq),
          List.find?_cons_of_neg _ (by simpa using hq)]
        exact ih

/-- Removing one file leaves the content of a different path unchanged. -/
theorem FS.readFile_rm_other (fs : FS) (p q : String) (h : q ≠ p) :
    (fs.rm p).readFile q = fs.readFile q := by
  unfold FS.rm FS.readFile
  show ((fs.files.filter fun x => x.1 ≠ p).find? (fun x => x.1 = q)).map
      (fun x => x.2) = _
  rw [find?_filter_ne fs.files p q h]

/-- A removed file no longer exists as a file. -/
theorem FS.isFile_rm_self (fs : FS) (p : String) :
    (fs.rm p).isFile p = false := by
  simp only [FS.rm, FS.isFile]
  rw [List.any_eq_false]
  intro x hx
  simp only [List.mem_filter] at hx
  simpa using hx.2

/-- Claim C2 (counterexample): in the receipt pipeline, when the declared
intermediate output is absent after the tool run but a `.txt` candidate sits
in the fingerprinted staging directory, the stage proceeds using the
candidate in place: nothing is copied or moved to the expected output
location (which remains absent), the found file is not removed, and the
trace holds only the tool invocation — no write and no removal. -/
theorem claim_C2_counterexample :
    (receiptStep1 locEnv locFS "/in/b.jpg" "/out/b.receipt.json" false).1 =
        some "/out/h2/found.txt"
      ∧ fexists (receiptStep1 locEnv locFS "/in/b.jpg" "/out/b.receipt.json"
          false).2.1 "/out/h2/b.extracted.txt" = false
      ∧ FS.isFile (receiptStep1 locEnv locFS "/in/b.jpg" "/out/b.receipt.json"
          false).2.1 "/out/h2/found.txt" = true
      ∧ (receiptStep1 locEnv locFS "/in/b.jpg" "/out/b.receipt.json" false).2.2 =
          [Event.ranTool "doc-to-text"
            (receiptExtractArgs "/in/b.jpg" "/out/h2/b.extracted.txt" false)] := by
  exact ⟨by decide, by decide, by decide, by decide⟩

/-- Claim C2 (amended): when a stage's declared output file is absent after
the tool invocation, the two pipelines recover differently.  In the
text-extraction workflow the locator searches the working directory for the
tool's default `text.txt`, copies its content to the expected output
location, removes the found file, and the stage succeeds (the stage's
boolean outcome is exactly that of the subsequent non-emptiness validation
of the relocated text, stated here as a full characterization); in the
receipt workflow the locator instead redirects the stage to the candidate
found in the fingerprinted staging subdirectory or, failing that, to the
first `text.txt` found under the working directory, using it in place and
copying and removing nothing.  In both pipelines, when no candidate is
found anywhere, the stage fails. -/
theorem claim_C2_amended :
    (∀ (env : Env) (fs : FS) (doc out ocr tpl ct : String) (vb : Bool)
        (cwdP src content : String) (rest : List String),
      (env.runTool "doc-to-text" (textExtractArgs doc out ocr tpl ct vb)).error = none →
      fexists (textPostFS env fs doc out ocr tpl ct vb) out = false →
      env.cwdPath = some cwdP →
      (textPostFS env fs doc out ocr tpl ct vb).findAll cwdP "text.txt" = src :: rest →
      (textPostFS env fs doc out ocr tpl ct vb).readFile src = some content →
      env.writeFails out = false →
      extractTextFromDocument env fs doc out ocr tpl ct vb =
        ((if trimStr content = "" then false else true),
         ((textPostFS env fs doc out ocr tpl ct vb).writeRaw out content).rm src,
         [Event.ranTool "doc-to-text" (textExtractArgs doc out ocr tpl ct vb),
          Event.wrote out, Event.removed src]))
    ∧ (∀ (env : Env) (fs : FS) (doc out : String) (vb : Bool) (cwdP : String)
        (e : DirEntry),
      fexists fs (receiptHashDir0 env fs doc out) = true →
      fexists fs (receiptTempTextFile doc (receiptHashDir0 env fs doc out)) = false →
      (env.runTool "doc-to-text" (receiptExtractArgs doc
        (receiptTempTextFile doc (receiptHashDir0 env fs doc out)) vb)).error = none →
      fexists (receiptPostFS env fs doc
        (receiptTempTextFile doc (receiptHashDir0 env fs doc out)) vb)
        (receiptTempTextFile doc (receiptHashDir0 env fs doc out)) = false →
      env.cwdPath = some cwdP →
      receiptHashDir0 env fs doc out ≠ fsDirname out →
      fexists (receiptPostFS env fs doc
        (receiptTempTextFile doc (receiptHashDir0 env fs doc out)) vb)
        (receiptHashDir0 env fs doc out) = true →
      env.readdirFails (receiptHashDir0 env fs doc out) = false →
      ((receiptPostFS env fs doc
          (receiptTempTextFile doc (receiptHashDir0 env fs doc out)) vb).readdir
        (receiptHashDir0 env fs doc out)).find?
          (fun e2 => strEndsWith e2.name ".txt" && !e2.isDir) = some e →
      fexists (receiptPostFS env fs doc
        (receiptTempTextFile doc (receiptHashDir0 env fs doc out)) vb) e.path = true →
      receiptStep1 env fs doc out vb =
        (some e.path,
         receiptPostFS env fs doc
           (receiptTempTextFile doc (receiptHashDir0 env fs doc out)) vb,
         [Event.ranTool "doc-to-text" (receiptExtractArgs doc
            (receiptTempTextFile doc (receiptHashDir0 env fs doc out)) vb)]))
    ∧ (∀ (env : Env) (fs : FS) (doc out : String) (vb : Bool) (cwdP f : String)
        (frest : List String),
      fexists fs (receiptHashDir0 env fs doc out) = true →
      fexists fs (receiptTempTextFile doc (receiptHashDir0 env fs doc out)) = false →
      (env.runTool "doc-to-text" (receiptExtractArgs doc
        (receiptTempTextFile doc (receiptHashDir0 env fs doc out)) vb)).error = none →
      fexists (receiptPostFS env fs doc
        (receiptTempTextFile doc (receiptHashDir0 env fs doc out)) vb)
        (receiptTempTextFile doc (receiptHashDir0 env fs doc out)) = false →
      env.cwdPath = some cwdP →
      ((receiptPostFS env fs doc
          (receiptTempTextFile doc (receiptHashDir0 env fs doc out)) vb).readdir
        (receiptHashDir0 env fs doc out)).find?
          (fun e2 => strEndsWith e2.name ".txt" && !e2.isDir) = none →
      (receiptPostFS env fs doc
        (receiptTempTextFile doc (receiptHashDir0 env fs doc out)) vb).findAll
        cwdP "text.txt" = f :: frest →
      receiptStep1 env fs doc out vb =
        (some f,
         receiptPostFS env fs doc
           (receiptTempTextFile doc (receiptHashDir0 env fs doc out)) vb,
         [Event.ranTool "doc-to-text" (receiptExtractArgs doc
            (receiptTempTextFile doc (receiptHashDir0 env fs doc out)) vb)]))
    ∧ (∀ (env : Env) (fs : FS) (doc out ocr tpl ct : String) (vb : Bool)
        (cwdP : String),
      (env.runTool "doc-to-text" (textExtractArgs doc out ocr tpl ct vb)).error = none →
      fexists (textPostFS env fs doc out ocr tpl ct vb) out = false →
      env.cwdPath = some cwdP →
      (textPostFS env fs doc out ocr tpl ct vb).findAll cwdP "text.txt" = [] →
      extractTextFromDocument env fs doc out ocr tpl ct vb =
        (false, textPostFS env fs doc out ocr tpl ct vb,
         [Event.ranTool "doc-to-text" (textExtractArgs doc out ocr tpl ct vb)]))
    ∧ (∀ (env : Env) (fs : FS) (doc out : String) (vb : Bool) (cwdP : String),
      fexists fs (receiptHashDir0 env fs doc out) = true →
      fexists fs (receiptTempTextFile doc (receiptHashDir0 env fs doc out)) = false →
      (env.runTool "doc-to-text" (receiptExtractArgs doc
        (receiptTempTextFile doc (receiptHashDir0 env fs doc out)) vb)).error = none →
      fexists (receiptPostFS env fs doc
        (receiptTempTextFile doc (receiptHashDir0 env fs doc out)) vb)
        (receiptTempTextFile doc (receiptHashDir0 env fs doc out)) = false →
      env.cwdPath = some cwdP →
      ((receiptPostFS env fs doc
          (receiptTempTextFile doc (receiptHashDir0 env fs doc out)) vb).readdir
        (receiptHashDir0 env fs doc out)).find?
          (fun e2 => strEndsWith e2.name ".txt" && !e2.isDir) = none →
      (receiptPostFS env fs doc
        (receiptTempTextFile doc (receiptHashDir0 env fs doc out)) vb).findAll
        cwdP "text.txt" = [] →
      receiptStep1 env fs doc out vb =
        (none,
         receiptPostFS env fs doc
           (receiptTempTextFile doc (receiptHashDir0 env fs doc out)) vb,
         [Event.ranTool "doc-to-text" (receiptExtractArgs doc
            (receiptTempTextFile doc (receiptHashDir0 env fs doc out)) vb)])) := by
  refine ⟨?_, ?_, ?_, ?_, ?_⟩
  · intro env fs doc out ocr tpl ct vb cwdP src content rest herr hmiss hcwd hfind
      hread hw
    have hsrcne : out ≠ src := by
      intro he
      have hmem : src ∈ (textPostFS env fs doc out ocr tpl ct vb).findAll
          cwdP "text.txt" := by
        rw [hfind]
        exact List.mem_cons_self _ _
      unfold FS.findAll at hmem
      rw [List.mem_filter] at hmem
      obtain ⟨hmap, _⟩ := hmem
      obtain ⟨q, hq, hqe⟩ := List.mem_map.mp hmap
      have hf : (textPostFS env fs doc out ocr tpl ct vb).isFile src = true := by
        simp only [FS.isFile, List.any_eq_true]
        exact ⟨q, hq, by simp [hqe]⟩
      rw [← he] at hf
      simp [fexists, hf] at hmiss
    unfold extractTextFromDocument
    simp only [cliCommand, textPostFS] at *
    simp only [herr, Option.isSome_none, Bool.false_eq_true, if_false, hmiss,
      Bool.not_false, if_true, hcwd, hfind, hread, hw]
    unfold verifyExtractedText
    rw [FS.readFile_rm_other _ _ _ hsrcne, FS.readFile_writeRaw_self]
    by_cases ht : trimStr content = "" <;> simp [ht]
  · intro env fs doc out vb cwdP e hhd hnc herr hmiss hcwd hneq hhd2 hrd hfind hep
    simp only [receiptPostFS] at *
    have hfb : receiptFallback env
        (applyWrites fs (env.runTool "doc-to-text" (receiptExtractArgs doc
          (receiptTempTextFile doc (receiptHashDir0 env fs doc out)) vb)).writes)
        (receiptHashDir0 env fs doc out) (fsDirname out)
        (receiptTempTextFile doc (receiptHashDir0 env fs doc out)) = some e.path := by
      unfold receiptFallback
      rw [hcwd]
      split
      · rename_i x heq
        exact Option.noConfusion heq
      · rename_i x cwdP2 heq
        injection heq with h2
        subst h2
        simp only [hneq, hhd2, hrd, Bool.false_eq_true, if_false, hfind, ne_eq,
          not_false_iff, true_and, if_true, hep]
    unfold receiptStep1 receiptResolveHashDir
    simp only [hhd, if_true, hnc, Bool.false_eq_true, if_false, cliCommand]
    simp only [herr, Option.isSome_none, Bool.false_eq_true, if_false, hmiss, hfb]
  · intro env fs doc out vb cwdP f frest hhd hnc herr hmiss hcwd hfind hall
    simp only [receiptPostFS] at *
    have hfb : receiptFallback env
        (applyWrites fs (env.runTool "doc-to-text" (receiptExtractArgs doc
          (receiptTempTextFile doc (receiptHashDir0 env fs doc out)) vb)).writes)
        (receiptHashDir0 env fs doc out) (fsDirname out)
        (receiptTempTextFile doc (receiptHashDir0 env fs doc out)) = some f := by
      unfold receiptFallback
      rw [hcwd]
      split
      · rename_i x heq
        exact Option.noConfusion heq
      · rename_i x cwdP2 heq
        injection heq with h2
        subst h2
        split
        · split
          · simp [hmiss, hall]
          · rw [hfind]
            simp [hmiss, hall]
        · simp [hmiss, hall]
    unfold receiptStep1 receiptResolveHashDir
    simp only [hhd, if_true, hnc, Bool.false_eq_true, if_false, cliCommand]
    simp only [herr, Option.isSome_none, Bool.false_eq_true, if_false, hmiss, hfb]
  · intro env fs doc out ocr tpl ct vb cwdP herr hmiss hcwd hfind
    unfold extractTextFromDocument
    simp only [cliCommand, textPostFS] at *
    simp only [herr, Option.isSome_none, Bool.false_eq_true, if_false, hmiss,
      Bool.not_false, if_true, hcwd, hfind]
  · intro env fs doc out vb cwdP hhd hnc herr hmiss hcwd hfind hall
    simp only [receiptPostFS] at *
    have hfb : receiptFallback env
        (applyWrites fs (env.runTool "doc-to-text" (receiptExtractArgs doc
          (receiptTempTextFile doc (receiptHashDir0 env fs doc out)) vb)).writes)
        (receiptHashDir0 env fs doc out) (fsDirname out)
        (receiptTempTextFile doc (receiptHashDir0 env fs doc out)) = none := by
      unfold receiptFallback
      rw [hcwd]
      split
      · rfl
      · rename_i x cwdP2 heq
        injection heq with h2
        subst h2
        split
        · split
          · simp [hmiss, hall]
          · rw [hfind]
            simp [hmiss, hall]
        · simp [hmiss, hall]
    unfold receiptStep1 receiptResolveHashDir
    simp only [hhd, if_true, hnc, Bool.false_eq_true, if_false, cliCommand]
    simp only [herr, Option.isSome_none, Bool.false_eq_true, if_false, hmiss, hfb]

/-- Claim C2 (witness): the amended theorem applied to five concrete
scenarios — relocation in the text workflow, in-place redirection in the
receipt workflow to a staging-directory candidate and to a
working-directory candidate, and the no-candidate failure in both
pipelines. -/
theorem claim_C2_witness :
    (fexists (textPostFS relocEnv relocFS "/in/d.pdf" "/out/d.txt" "surya_ocr"
        "" "" false) "/out/d.txt" = false
      ∧ extractTextFromDocument relocEnv relocFS "/in/d.pdf" "/out/d.txt"
          "surya_ocr" "" "" false =
        (true, ((textPostFS relocEnv relocFS "/in/d.pdf" "/out/d.txt" "surya_ocr"
            "" "" false).writeRaw "/out/d.txt" "hello").rm "/cwd/x/text.txt",
         [Event.ranTool "doc-to-text"
            (textExtractArgs "/in/d.pdf" "/out/d.txt" "surya_ocr" "" "" false),
          Event.wrote "/out/d.txt", Event.removed "/cwd/x/text.txt"]))
    ∧ receiptStep1 locEnv locFS "/in/b.jpg" "/out/b.receipt.json" false =
        (some "/out/h2/found.txt",
         receiptPostFS locEnv locFS "/in/b.jpg" (receiptTempTextFile "/in/b.jpg"
           (receiptHashDir0 locEnv locFS "/in/b.jpg" "/out/b.receipt.json")) false,
         [Event.ranTool "doc-to-text" (receiptExtractArgs "/in/b.jpg"
            (receiptTempTextFile "/in/b.jpg"
              (receiptHashDir0 locEnv locFS "/in/b.jpg" "/out/b.receipt.json"))
            false)])
    ∧ receiptStep1 cwdLocEnv locFS "/in/b.jpg" "/out/b.receipt.json" false =
        (some "/cwd/y/text.txt",
         receiptPostFS cwdLocEnv locFS "/in/b.jpg" (receiptTempTextFile "/in/b.jpg"
           (receiptHashDir0 cwdLocEnv locFS "/in/b.jpg" "/out/b.receipt.json"))
           false,
         [Event.ranTool "doc-to-text" (receiptExtractArgs "/in/b.jpg"
            (receiptTempTextFile "/in/b.jpg" (receiptHashDir0 cwdLocEnv locFS
              "/in/b.jpg" "/out/b.receipt.json")) false)])
    ∧ extractTextFromDocument noOutputEnv relocFS "/in/d.pdf" "/out/d.txt"
        "surya_ocr" "" "" false =
        (false, textPostFS noOutputEnv relocFS "/in/d.pdf" "/out/d.txt"
           "surya_ocr" "" "" false,
         [Event.ranTool "doc-to-text"
            (textExtractArgs "/in/d.pdf" "/out/d.txt" "surya_ocr" "" "" false)])
    ∧ receiptStep1 noOutputEnv locFS "/in/b.jpg" "/out/b.receipt.json" false =
        (none,
         receiptPostFS noOutputEnv locFS "/in/b.jpg" (receiptTempTextFile
           "/in/b.jpg" (receiptHashDir0 noOutputEnv locFS "/in/b.jpg"
             "/out/b.receipt.json")) false,
         [Event.ranTool "doc-to-text" (receiptExtractArgs "/in/b.jpg"
            (receiptTempTextFile "/in/b.jpg" (receiptHashDir0 noOutputEnv locFS
              "/in/b.jpg" "/out/b.receipt.json")) false)]) := by
  refine ⟨⟨by decide, ?_⟩, ?_, ?_, ?_, ?_⟩
  · exact (claim_C2_amended.1 relocEnv relocFS "/in/d.pdf" "/out/d.txt"
      "surya_ocr" "" "" false "/cwd" "/cwd/x/text.txt" "hello" []
      (by decide) (by decide) (by decide) (by decide) (by decide)
      (by decide)).trans (by rfl)
  · exact claim_C2_amended.2.1 locEnv locFS "/in/b.jpg" "/out/b.receipt.json"
      false "/cwd" ⟨"found.txt", "/out/h2/found.txt", false⟩
      (by decide) (by decide) (by decide) (by decide) (by decide) (by decide)
      (by decide) (by decide) (by decide) (by decide)
  · exact claim_C2_amended.2.2.1 cwdLocEnv locFS "/in/b.jpg"
      "/out/b.receipt.json" false "/cwd" "/cwd/y/text.txt" []
      (by decide) (by decide) (by decide) (by decide) (by decide) (by decide)
      (by decide)
  · exact claim_C2_amended.2.2.2.1 noOutputEnv relocFS "/in/d.pdf" "/out/d.txt"
      "surya_ocr" "" "" false "/cwd"
      (by decide) (by decide) (by decide) (by decide)
  · exact claim_C2_amended.2.2.2.2 noOutputEnv locFS "/in/b.jpg"
      "/out/b.receipt.json" false "/cwd"
      (by decide) (by decide) (by decide) (by decide) (by decide) (by decide)
      (by decide)

/-- A failed read-back of an existing receipt file always logs exactly one
error message. -/
theorem readExisting_none_logged (env : Env) (fs : FS) (p : String)
    (h : (readExistingReceiptData env fs p).1 = none) :
    ∃ msg, (readExistingReceiptData env fs p).2 = [Event.logged msg] := by
  unfold readExistingReceiptData at h ⊢
  split at h
  · rename_i heq
    simp only [heq]
    exact ⟨"failed to read existing receipt data", rfl⟩
  · rename_i c heq
    split at h
    · rename_i hp
      simp only [heq, hp]
      exact ⟨"failed to parse existing receipt data", rfl⟩
    · simp at h

/-- Claim C3: in the receipt workflow with overwrite off and an existing
individual output, the loop iteration re-reads and re-parses the existing
file.  On parse success the payload joins the aggregation collection and
the skipped counter increments, with success and failure counts untouched;
on parse failure the error is reported as a log message, no counter changes
(the file adds to neither success, failure nor skipped), and the loop
continues with the remaining files either way. -/
theorem claim_C3 (env : Env) (fs : FS) (isBatch : Bool) (outputPath : String)
    (vb : Bool) (acc : RunAcc) (f : String) (rest : List String)
    (hex : fexists fs (determineReceiptOutputPath fs f (fsBasename f)
      outputPath isBatch) = true) :
    (∀ d ev, readExistingReceiptData env fs (determineReceiptOutputPath fs f
        (fsBasename f) outputPath isBatch) = (some d, ev) →
      receiptLoop env false isBatch outputPath vb fs acc (f :: rest) =
        (let r2 := receiptLoop env false isBatch outputPath vb fs
          { acc with receipts := acc.receipts ++ [d],
                     skipped := acc.skipped + 1 } rest
         (r2.1, r2.2.1, ev ++ r2.2.2)))
    ∧ (∀ ev, readExistingReceiptData env fs (determineReceiptOutputPath fs f
        (fsBasename f) outputPath isBatch) = (none, ev) →
      (∃ msg, ev = [Event.logged msg])
        ∧ receiptLoop env false isBatch outputPath vb fs acc (f :: rest) =
          (let r2 := receiptLoop env false isBatch outputPath vb fs acc rest
           (r2.1, r2.2.1, ev ++ r2.2.2))) := by
  constructor
  · intro d ev hparse
    show (let r := receiptProcessFile env fs false isBatch outputPath vb acc f
          let r2 := receiptLoop env false isBatch outputPath vb r.1 r.2.1 rest
          (r2.1, r2.2.1, r.2.2 ++ r2.2.2)) = _
    unfold receiptProcessFile
    simp only [Bool.not_false, hex, Bool.true_and, if_true, hparse]
  · intro ev hparse
    refine ⟨?_, ?_⟩
    · have h1 : (readExistingReceiptData env fs (determineReceiptOutputPath fs f
          (fsBasename f) outputPath isBatch)).1 = none := by
        rw [hparse]
      obtain ⟨msg, hmsg⟩ := readExisting_none_logged env fs _ h1
      rw [hparse] at hmsg
      exact ⟨msg, hmsg⟩
    · show (let r := receiptProcessFile env fs false isBatch outputPath vb acc f
            let r2 := receiptLoop env false isBatch outputPath vb r.1 r.2.1 rest
            (r2.1, r2.2.1, r.2.2 ++ r2.2.2)) = _
      unfold receiptProcessFile
      simp only [Bool.not_false, hex, Bool.true_and, if_true, hparse]

/-- Claim C3 (witness): the theorem applied to a concrete skipped file with
a parseable existing output and to one with an unparseable existing
output. -/
theorem claim_C3_witness :
    (fexists cacheFS (determineReceiptOutputPath cacheFS "/in/a.jpg"
        (fsBasename "/in/a.jpg") "/out" true) = true
      ∧ receiptLoop cacheEnv false true "/out" false cacheFS ⟨0, 0, 0, []⟩
          ["/in/a.jpg"] = (cacheFS, ⟨0, 0, 1, [taxiReceipt]⟩, []))
    ∧ ((∃ msg, [Event.logged "failed to parse existing receipt data"] =
          [Event.logged msg])
      ∧ receiptLoop cacheEnv false true "/out" false badFS ⟨0, 0, 0, []⟩
          ["/in/a.jpg"] =
        (badFS, ⟨0, 0, 0, []⟩,
         [Event.logged "failed to parse existing receipt data"])) := by
  refine ⟨⟨by decide, ?_⟩, ?_⟩
  · exact ((claim_C3 cacheEnv cacheFS true "/out" false ⟨0, 0, 0, []⟩
      "/in/a.jpg" [] (by decide)).1 taxiReceipt [] (by rfl)).trans (by rfl)
  · have h := (claim_C3 cacheEnv badFS true "/out" false ⟨0, 0, 0, []⟩
      "/in/a.jpg" [] (by decide)).2
      [Event.logged "failed to parse existing receipt data"] (by rfl)
    exact ⟨h.1, h.2.trans (by rfl)⟩

/-- A just-created directory exists as a directory. -/
theorem FS.isDir_mkdirRaw_self (fs : FS) (p : String) :
    (fs.mkdirRaw p).isDir p = true := by
  simp [FS.mkdirRaw, FS.isDir]

/-- Claim C6: the Path Resolver.  In batch mode a successful result is
always a directory in the resulting state (an existing non-directory is
rejected with a validation error and a failed creation is propagated as an
error); in single-file mode an existing path — file or directory — is never
rejected.  The hypothesis `habs` is the collaborator contract for
absolute-path resolution: a resolved absolute path names the same
directory-or-not object as the path it resolves. -/
theorem claim_C6 (env : Env) (fs : FS) (p : String)
    (habs : ∀ (g : FS) (a b : String), env.absMap a = some b →
      g.isDir b = g.isDir a) :
    (∀ fs2 q, validateOutputPath env fs p true = (fs2, .ok q) →
      fs2.isDir q = true)
    ∧ (fexists fs p = true → fs.isDir p = false →
        ∃ msg, validateOutputPath env fs p true = (fs, .invalid msg))
    ∧ (fexists fs p = false → env.mkdirFails p = true →
        ∃ msg, validateOutputPath env fs p true = (fs, .invalid msg))
    ∧ (fexists fs p = true →
        ∃ q, validateOutputPath env fs p false = (fs, .ok q)) := by
  have habsOr : ∀ (g : FS), g.isDir p = true → g.isDir (absOr env p) = true := by
    intro g hg
    unfold absOr
    cases ha : env.absMap p with
    | none => exact hg
    | some b =>
      rw [Option.getD_some, habs g p b ha]
      exact hg
  refine ⟨?_, ?_, ?_, ?_⟩
  · intro fs2 q hval
    unfold validateOutputPath at hval
    by_cases hex : fexists fs p = true
    · rw [if_pos rfl, if_pos hex] at hval
      by_cases hdir : fs.isDir p = true
      · rw [if_neg (by simp [hdir])] at hval
        obtain ⟨h1, h2⟩ := Prod.mk.injEq _ _ _ _ ▸ hval
        obtain rfl := h1
        obtain rfl := VResult.ok.injEq _ _ ▸ h2
        exact habsOr _ hdir
      · rw [if_pos (by simpa using hdir)] at hval
        exact absurd (Prod.mk.injEq _ _ _ _ ▸ hval).2 (by simp)
    · rw [if_pos rfl, if_neg hex] at hval
      by_cases hmk : env.mkdirFails p = true
      · rw [if_pos hmk] at hval
        exact absurd (Prod.mk.injEq _ _ _ _ ▸ hval).2 (by simp)
      · rw [if_neg hmk] at hval
        obtain ⟨h1, h2⟩ := Prod.mk.injEq _ _ _ _ ▸ hval
        obtain rfl := h1
        obtain rfl := VResult.ok.injEq _ _ ▸ h2
        exact habsOr _ (FS.isDir_mkdirRaw_self fs p)
  · intro hex hdir
    refine ⟨"output path must be a directory", ?_⟩
    unfold validateOutputPath
    rw [if_pos rfl, if_pos hex, if_pos (by simpa using hdir)]
  · intro hex hmk
    refine ⟨"cannot create output directory", ?_⟩
    unfold validateOutputPath
    rw [if_pos rfl, if_neg (by simp [hex]), if_pos hmk]
  · intro hex
    refine ⟨absOr env p, ?_⟩
    unfold validateOutputPath
    rw [if_neg (by simp), if_pos hex]

/-- Claim C6 (witness): the theorem applied to an existing directory, an
existing plain file, a failing creation, and single-file mode. -/
theorem claim_C6_witness :
    (validateOutputPath baseEnv summaryFS "/out" true =
        (summaryFS, .ok "/out") ∧ FS.isDir summaryFS "/out" = true)
    ∧ ((fexists fsDocRoot "/in/notes" = true
        ∧ FS.isDir fsDocRoot "/in/notes" = false)
      ∧ ∃ msg, validateOutputPath baseEnv fsDocRoot "/in/notes" true =
          (fsDocRoot, .invalid msg))
    ∧ ((fexists summaryFS "/new" = false ∧ mkdirFailEnv.mkdirFails "/new" = true)
      ∧ ∃ msg, validateOutputPath mkdirFailEnv summaryFS "/new" true =
          (summaryFS, .invalid msg))
    ∧ (fexists fsDocRoot "/in/notes" = true
      ∧ ∃ q, validateOutputPath baseEnv fsDocRoot "/in/notes" false =
          (fsDocRoot, .ok q)) := by
  have habs1 : ∀ (g : FS) (a b : String), baseEnv.absMap a = some b →
      g.isDir b = g.isDir a := fun g a b h => Option.noConfusion h
  have habs2 : ∀ (g : FS) (a b : String), mkdirFailEnv.absMap a = some b →
      g.isDir b = g.isDir a := fun g a b h => Option.noConfusion h
  refine ⟨⟨by decide, ?_⟩, ⟨⟨by decide, by decide⟩, ?_⟩,
    ⟨⟨by decide, by decide⟩, ?_⟩, ⟨by decide, ?_⟩⟩
  · exact (claim_C6 baseEnv summaryFS "/out" habs1).1 summaryFS "/out" (by decide)
  · exact (claim_C6 baseEnv fsDocRoot "/in/notes" habs1).2.1 (by decide) (by decide)
  · exact (claim_C6 mkdirFailEnv summaryFS "/new" habs2).2.2.1 (by decide) (by decide)
  · exact (claim_C6 baseEnv fsDocRoot "/in/notes" habs1).2.2.2 (by decide)

/-- The text-variant discovery result is sorted. -/
theorem getDocumentFiles_sorted (env : Env) (fs : FS) (input : String)
    (exts : List String) :
    List.Sorted (· ≤ ·) (getDocumentFiles env fs input exts).1 := by
  unfold getDocumentFiles
  split
  · exact List.sorted_nil
  · exact List.sorted_insertionSort _ _

/-- The receipt-variant discovery result is sorted. -/
theorem getDocumentFilesR_sorted (env : Env) (fs : FS) (input : String)
    (exts : List String) :
    List.Sorted (· ≤ ·) (getDocumentFilesR env fs input exts).1 := by
  unfold getDocumentFilesR
  split
  · exact List.sorted_nil
  · exact List.sorted_insertionSort _ _

/-- Claim C7: for every input (single file or directory), document
discovery returns a list sorted ascending by path and never includes
directories, files with non-allow-listed extensions, or files with no
extension; a file with no extension is simply excluded, in both the
text-workflow variant and the receipt-workflow variant.  The hypothesis is
filesystem well-formedness: no path is both a regular file and a
directory. -/
theorem claim_C7 (env : Env) (fs : FS) (input : String)
    (hwf : ∀ q ∈ fs.files, FS.isDir fs q.1 = false) :
    (List.Sorted (· ≤ ·)
        (getDocumentFiles env fs input textDocumentExtensions).1
      ∧ ∀ p ∈ (getDocumentFiles env fs input textDocumentExtensions).1,
          FS.isDir fs p = false
            ∧ isDocumentFile p textDocumentExtensions = true ∧ fsExt p ≠ "")
    ∧ (List.Sorted (· ≤ ·)
        (getDocumentFilesR env fs input receiptDocumentExtensions).1
      ∧ ∀ p ∈ (getDocumentFilesR env fs input receiptDocumentExtensions).1,
          FS.isDir fs p = false
            ∧ isDocumentFileR p receiptDocumentExtensions = true
            ∧ fsExt p ≠ "") := by
  have hextT : ∀ p, isDocumentFile p textDocumentExtensions = true →
      fsExt p ≠ "" := by
    intro p hdoc he
    rw [isDocumentFile, he] at hdoc
    exact absurd hdoc (by decide)
  have hextR : ∀ p, isDocumentFileR p receiptDocumentExtensions = true →
      fsExt p ≠ "" := by
    intro p hdoc he
    rw [isDocumentFileR, he] at hdoc
    simp at hdoc
  refine ⟨⟨getDocumentFiles_sorted env fs input textDocumentExtensions, ?_⟩,
    ⟨getDocumentFilesR_sorted env fs input receiptDocumentExtensions, ?_⟩⟩
  · intro p hp
    by_cases hex : fexists fs input = true
    · by_cases hdir : FS.isDir fs input = true
      · by_cases hrf : env.readdirFails input = true
        · simp [getDocumentFiles, hex, hdir, hrf, List.insertionSort] at hp
        · obtain ⟨c, ⟨hmem, _⟩, hdoc⟩ :=
            (getDocumentFiles_dir_mem env fs input textDocumentExtensions p hdir
              (by simpa using hrf)).mp hp
          exact ⟨hwf (p, c) hmem, hdoc, hextT p hdoc⟩
      · by_cases hf : FS.isFile fs input = true
        · rw [show (getDocumentFiles env fs input textDocumentExtensions).1 =
              (if isDocumentFile input textDocumentExtensions = true
                then [input] else []).insertionSort (· ≤ ·) by
            simp [getDocumentFiles, hex, hdir, hf]] at hp
          rw [List.mem_insertionSort] at hp
          split at hp
          · rename_i hdoc
            rw [List.mem_singleton] at hp
            subst hp
            exact ⟨by simpa using hdir, hdoc, hextT p hdoc⟩
          · simp at hp
        · simp [getDocumentFiles, hex, hdir, hf, List.insertionSort] at hp
    · simp [getDocumentFiles, hex] at hp
  · intro p hp
    by_cases hex : fexists fs input = true
    · by_cases hdir : FS.isDir fs input = true
      · by_cases hrf : env.readdirFails input = true
        · simp [getDocumentFilesR, hex, hdir, hrf, List.insertionSort] at hp
        · obtain ⟨c, ⟨hmem, _⟩, hdoc⟩ :=
            (getDocumentFilesR_dir_mem env fs input receiptDocumentExtensions p
              hdir (by simpa using hrf)).mp hp
          exact ⟨hwf (p, c) hmem, hdoc, hextR p hdoc⟩
      · by_cases hf : FS.isFile fs input = true
        · rw [show (getDocumentFilesR env fs input receiptDocumentExtensions).1 =
              (if isDocumentFileR input receiptDocumentExtensions = true
                then [input] else []).insertionSort (· ≤ ·) by
            simp [getDocumentFilesR, hex, hdir, hf]] at hp
          rw [List.mem_insertionSort] at hp
          split at hp
          · rename_i hdoc
            rw [List.mem_singleton] at hp
            subst hp
            exact ⟨by simpa using hdir, hdoc, hextR p hdoc⟩
          · simp at hp
        · simp [getDocumentFilesR, hex, hdir, hf, List.insertionSort] at hp
    · simp [getDocumentFilesR, hex] at hp

/-- Claim C7 (witness): the theorem applied to a concrete root directory
holding a matching document, an extension-less file, and a subdirectory. -/
theorem claim_C7_witness :
    (∀ q ∈ fsDocRoot.files, FS.isDir fsDocRoot q.1 = false)
    ∧ ((List.Sorted (· ≤ ·)
          (getDocumentFiles baseEnv fsDocRoot "/in" textDocumentExtensions).1
        ∧ ∀ p ∈ (getDocumentFiles baseEnv fsDocRoot "/in"
            textDocumentExtensions).1,
            FS.isDir fsDocRoot p = false
              ∧ isDocumentFile p textDocumentExtensions = true ∧ fsExt p ≠ "")
      ∧ (List.Sorted (· ≤ ·)
          (getDocumentFilesR baseEnv fsDocRoot "/in"
            receiptDocumentExtensions).1
        ∧ ∀ p ∈ (getDocumentFilesR baseEnv fsDocRoot "/in"
            receiptDocumentExtensions).1,
            FS.isDir fsDocRoot p = false
              ∧ isDocumentFileR p receiptDocumentExtensions = true
              ∧ fsExt p ≠ "")) :=
  ⟨by decide, claim_C7 baseEnv fsDocRoot "/in" (by decide)⟩

/-- Claim C10: the boolean result of a run equals the pre-loop gate — it is
true exactly when input validation, output-path validation, the
tool-availability probes and the non-empty-discovery check all pass (that
is, when the run reaches the per-file processing loop), and in particular
it is true even when every file in the batch fails, for both the
text-extraction and the receipt-processor workflows. -/
theorem claim_C10 :
    (∀ (env : Env) (fs : FS) (input output ocrTool tpl ct : String)
        (ow vb : Bool),
      (textMain env fs input output ocrTool tpl ct ow vb).1 =
        textReachesLoop env fs input output ocrTool tpl ct)
    ∧ (∀ (env : Env) (fs : FS) (input output fmt : String) (ow vb : Bool),
      (receiptMain env fs input output fmt ow vb).1 =
        receiptReachesLoop env fs input output) := by
  constructor
  · intro env fs input output ocrTool tpl ct ow vb
    unfold textMain textReachesLoop
    cases h : (textPreLoop env fs input output ocrTool tpl ct).2 with
    | none => simp [h]
    | some gate =>
      obtain ⟨op, ib, files⟩ := gate
      simp [h]
  · intro env fs input output fmt ow vb
    unfold receiptMain receiptReachesLoop
    cases h : (receiptPreLoop env fs input output).2 with
    | none => simp [h]
    | some gate =>
      obtain ⟨op, ib, files⟩ := gate
      simp [h]

end Amo
